import Mathlib

/-!
# SPCDNS Lua binding (`src/luadns.c`): a shallow embedding

The binding marshals between Lua values and the C structures of the DNS
library.  The embedding has three layers:

* a model of the part of the Lua 5.1 C API the binding uses: a value stack
  (top of stack first) and a heap of table objects addressed by reference;
* the C structures of `dns.h` as Lean structures, a C array being a function
  from the index to the element;
* the functions of `luadns.c`, translated statement by statement.

The DNS library itself (`dns_encode`, `dns_decode`, the mnemonic tables) and
the libc/Lua conversions are not part of `luadns.c`; the binding is
parametric in them (`DnsLib`).

Lua numbers are IEEE doubles in C; here a number is the rational value of the
double.  Every integer the binding pushes is far below 2^53 and so exact; the
one floating-point computation, `sec + frac / 1000.0`, goes through the double
operations of `DnsLib`.
-/

namespace SPCDNS

/-! ## Lua values, tables, state -/

/-- A Lua value: `nil`, a boolean, a number, a string (one `Char` per octet)
or a reference to a table object in the heap. -/
inductive TValue where
  | nil
  | boolean (b : Bool)
  | number (n : ℚ)
  | string (s : String)
  | table (ref : Nat)
  deriving DecidableEq, Repr, Inhabited

/-- A table object: its key/value entries, no key twice, no `nil` value. -/
abbrev Table := List (TValue × TValue)

/-- Raw read `t[k]`: `nil` when the key is absent. -/
def luaH_get : Table → TValue → TValue
  | [], _ => .nil
  | (k', v) :: t, k => if k' = k then v else luaH_get t k

/-- Raw write `t[k] = v`: storing `nil` removes the key. -/
def luaH_set (t : Table) (k v : TValue) : Table :=
  if v = .nil then t.filter (fun e => !decide (e.1 = k))
  else (k, v) :: t.filter (fun e => !decide (e.1 = k))

/-- The part of a `lua_State` the binding can observe: the value stack of the
running C function (top of stack first) and the table objects. -/
structure lua_State where
  stack : List TValue
  heap : List Table
  deriving DecidableEq, Repr, Inhabited

/-- Stack index resolution.  A positive index counts from the bottom (an
index above the top is the `nil` object), a negative one from the top;
index 0 and a negative index below the bottom are API misuse. -/
def index2adr (L : lua_State) (idx : Int) : Option TValue :=
  if 0 < idx then
    if idx.toNat ≤ L.stack.length then L.stack[L.stack.length - idx.toNat]?
    else some .nil
  else if idx < 0 then L.stack[(-idx).toNat - 1]?
  else none

def lua_gettop (L : lua_State) : Int := L.stack.length

def lua_push (L : lua_State) (v : TValue) : lua_State :=
  { L with stack := v :: L.stack }

def lua_pushnil (L : lua_State) : lua_State := lua_push L .nil

def lua_pushboolean (L : lua_State) (b : Bool) : lua_State := lua_push L (.boolean b)

def lua_pushinteger (L : lua_State) (n : Int) : lua_State := lua_push L (.number n)

def lua_pushnumber (L : lua_State) (n : ℚ) : lua_State := lua_push L (.number n)

/-- Pushes a NUL-terminated C string (never `NULL` in this binding). -/
def lua_pushstring (L : lua_State) (s : String) : lua_State := lua_push L (.string s)

/-- Pushes the first `len` octets found at `s`. -/
def lua_pushlstring (L : lua_State) (s : Nat → Char) (len : Nat) : lua_State :=
  lua_push L (.string (String.mk ((List.range len).map s)))

/-- The octets found at a C string literal: its characters, then NUL. -/
def cstr (s : String) : Nat → Char := fun i => s.data.getD i (Char.ofNat 0)

/-- Allocates a fresh empty table and pushes a reference to it; the two size
arguments are preallocation hints. -/
def lua_createtable (L : lua_State) (_narr _nrec : Nat) : lua_State :=
  { stack := .table L.heap.length :: L.stack, heap := L.heap ++ [[]] }

def lua_pushvalue (L : lua_State) (idx : Int) : Option lua_State := do
  let v ← index2adr L idx
  pure (lua_push L v)

/-- Pushes `t[k]` for the table `t` at `idx` (no metatables). -/
def lua_getfield (L : lua_State) (idx : Int) (k : String) : Option lua_State := do
  let t ← index2adr L idx
  match t with
  | .table r => do
      let tb ← L.heap[r]?
      pure (lua_push L (luaH_get tb (.string k)))
  | _ => none

/-- Does `t[k] = v` for the table `t` at `idx` and the value `v` at the top,
then pops the value.  The index is resolved before the pop. -/
def lua_setfield (L : lua_State) (idx : Int) (k : String) : Option lua_State := do
  let t ← index2adr L idx
  match t, L.stack with
  | .table r, v :: rest => do
      let tb ← L.heap[r]?
      pure { stack := rest, heap := L.heap.set r (luaH_set tb (.string k) v) }
  | _, _ => none

/-- Does `t[k] = v` for the table `t` at `idx`, `v` at the top and `k` just
below it, then pops both.  A `nil` key is an error. -/
def lua_settable (L : lua_State) (idx : Int) : Option lua_State := do
  let t ← index2adr L idx
  match t, L.stack with
  | .table r, v :: k :: rest =>
      if k = .nil then none
      else do
        let tb ← L.heap[r]?
        pure { stack := rest, heap := L.heap.set r (luaH_set tb k v) }
  | _, _ => none

def lua_istable (L : lua_State) (idx : Int) : Bool :=
  match index2adr L idx with
  | some (.table _) => true
  | _ => false

/-- Everything but `nil` and `false` is true. -/
def lua_toboolean (L : lua_State) (idx : Int) : Bool :=
  match index2adr L idx with
  | some .nil => false
  | some (.boolean b) => b
  | some _ => true
  | none => false

def lua_isnoneornil (L : lua_State) (idx : Int) : Bool :=
  match index2adr L idx with
  | some .nil => true
  | _ => false

/-- Overwrites the stack slot `idx` (used by the in-place number to string
conversion of `lua_tolstring`). -/
def lua_setslot (L : lua_State) (idx : Int) (v : TValue) : lua_State :=
  if 0 < idx then { L with stack := L.stack.set (L.stack.length - idx.toNat) v }
  else { L with stack := L.stack.set ((-idx).toNat - 1) v }

/-! ## The C structures of `dns.h` -/

abbrev dns_type_t := Nat
abbrev dns_class_t := Nat
abbrev dns_op_t := Nat
abbrev dns_rcode_t := Int

/-- Modelled from the spec: the record type codes of `dns.h` (absent from the
sources), with their RFC numbers. -/
def RR_A : dns_type_t := 1
def RR_NS : dns_type_t := 2
def RR_CNAME : dns_type_t := 5
def RR_SOA : dns_type_t := 6
def RR_WKS : dns_type_t := 11
def RR_PTR : dns_type_t := 12
def RR_HINFO : dns_type_t := 13
def RR_MX : dns_type_t := 15
def RR_TXT : dns_type_t := 16
def RR_GPOS : dns_type_t := 27
def RR_AAAA : dns_type_t := 28
def RR_LOC : dns_type_t := 29
def RR_SRV : dns_type_t := 33
def RR_NAPTR : dns_type_t := 35
def RR_SPF : dns_type_t := 99

/-- Modelled from the spec: `RCODE_OKAY` of `dns.h`, the DNS "no error" code. -/
def RCODE_OKAY : dns_rcode_t := 0

structure dnsgpos_angle where
  deg : Int
  min : Int
  sec : Int
  frac : Int
  nw : Bool
  deriving DecidableEq, Repr, Inhabited

structure dns_question_t where
  name : String
  type : dns_type_t
  «class» : dns_class_t
  deriving DecidableEq, Repr, Inhabited

/-- The fields every member of the `dns_answer_t` union starts with. -/
structure dns_generic_t where
  name : String
  type : dns_type_t
  «class» : dns_class_t
  ttl : Nat
  deriving DecidableEq, Repr, Inhabited

structure dns_a_t where
  address : Nat → Char

structure dns_aaaa_t where
  address : Nat → Char

structure dns_soa_t where
  mname : String
  rname : String
  serial : Nat
  refresh : Nat
  retry : Nat
  expire : Nat
  minimum : Nat

structure dns_naptr_t where
  order : Int
  preference : Int
  flags : String
  services : String
  regexp : String
  replacement : String

structure dns_srv_t where
  priority : Int
  weight : Int
  port : Int
  target : String

structure dns_wks_t where
  address : Nat → Char
  protocol : Int
  numbits : Nat
  bits : Nat → Char

structure dns_gpos_t where
  longitude : dnsgpos_angle
  latitude : dnsgpos_angle
  altitude : ℚ

structure dns_loc_t where
  size : ℚ
  horiz_pre : ℚ
  vert_pre : ℚ
  latitude : dnsgpos_angle
  longitude : dnsgpos_angle
  altitude : ℚ

structure dns_ns_t where
  nsdname : String

structure dns_cname_t where
  cname : String

structure dns_mx_t where
  preference : Int
  exchange : String

structure dns_ptr_t where
  ptr : String

structure dns_hinfo_t where
  cpu : String
  os : String

structure dns_txt_t where
  len : Nat
  text : Nat → Char

/-- The `dns_answer_t` union.  Each member is a view of the same record;
`generic.type` says which view is meaningful, and the binding reads only
that one. -/
structure dns_answer_t where
  generic : dns_generic_t
  a : dns_a_t
  ns : dns_ns_t
  cname : dns_cname_t
  soa : dns_soa_t
  ptr : dns_ptr_t
  hinfo : dns_hinfo_t
  mx : dns_mx_t
  txt : dns_txt_t
  wks : dns_wks_t
  srv : dns_srv_t
  naptr : dns_naptr_t
  loc : dns_loc_t
  gpos : dns_gpos_t
  aaaa : dns_aaaa_t

/-- A record with every octet zero (`memset(..., 0, ...)`). -/
def dns_answer_t.zero : dns_answer_t where
  generic := ⟨"", 0, 0, 0⟩
  a := ⟨fun _ => Char.ofNat 0⟩
  ns := ⟨""⟩
  cname := ⟨""⟩
  soa := ⟨"", "", 0, 0, 0, 0, 0⟩
  ptr := ⟨""⟩
  hinfo := ⟨"", ""⟩
  mx := ⟨0, ""⟩
  txt := ⟨0, fun _ => Char.ofNat 0⟩
  wks := ⟨fun _ => Char.ofNat 0, 0, 0, fun _ => Char.ofNat 0⟩
  srv := ⟨0, 0, 0, ""⟩
  naptr := ⟨0, 0, "", "", "", ""⟩
  loc := ⟨0, 0, 0, ⟨0, 0, 0, 0, false⟩, ⟨0, 0, 0, 0, false⟩, 0⟩
  gpos := ⟨⟨0, 0, 0, 0, false⟩, ⟨0, 0, 0, 0, false⟩, 0⟩
  aaaa := ⟨fun _ => Char.ofNat 0⟩

instance : Inhabited dns_answer_t := ⟨dns_answer_t.zero⟩

structure dns_query_t where
  id : Int
  query : Bool
  opcode : dns_op_t
  aa : Bool
  tc : Bool
  rd : Bool
  ra : Bool
  ad : Bool
  cd : Bool
  rcode : dns_rcode_t
  qdcount : Nat
  ancount : Nat
  nscount : Nat
  arcount : Nat
  questions : Nat → dns_question_t
  answers : Nat → dns_answer_t
  nameservers : Nat → dns_answer_t
  additional : Nat → dns_answer_t

/-- A query with every octet zero (`memset(&query, 0, sizeof(query))`). -/
def dns_query_t.zero : dns_query_t where
  id := 0
  query := false
  opcode := 0
  aa := false
  tc := false
  rd := false
  ra := false
  ad := false
  cd := false
  rcode := 0
  qdcount := 0
  ancount := 0
  nscount := 0
  arcount := 0
  questions := fun _ => ⟨"", 0, 0⟩
  answers := fun _ => dns_answer_t.zero
  nameservers := fun _ => dns_answer_t.zero
  additional := fun _ => dns_answer_t.zero

instance : Inhabited dns_query_t := ⟨dns_query_t.zero⟩

/-- What `luadns.c` takes from outside: the DNS library (`dns.h`,
`mappings.h`), `inet_ntop`, the Lua number conversions and the arithmetic of
the C type `double`. -/
structure DnsLib where
  /-- `MAX_DNS_QUERY_SIZE`, in octets. -/
  MAX_DNS_QUERY_SIZE : Nat
  /-- `sizeof(dns_align_t[DNS_BUFFER_UDP])`, in octets. -/
  sizeof_buffer_udp : Nat
  /-- `sizeof(dns_align_t[DNS_DECODEBUF_8K])`, in octets. -/
  sizeof_decodebuf_8k : Nat
  /-- `dns_encode(buffer,&len,&query)`: given the capacity `len` holds on
  entry, the return code, the buffer contents and `len` on return. -/
  dns_encode : Nat → dns_query_t → dns_rcode_t × (Nat → Char) × Nat
  /-- `dns_decode(buf,bufsize,data,size)`: the return code and the
  `dns_query_t` left at the start of `buf`. -/
  dns_decode : Nat → List Char → dns_rcode_t × dns_query_t
  dns_type_value : String → dns_type_t
  dns_class_value : String → dns_class_t
  dns_op_value : String → dns_op_t
  dns_type_text : dns_type_t → String
  dns_class_text : dns_class_t → String
  dns_rcode_text : dns_rcode_t → String
  /-- `inet_ntop(AF_INET,...)` on a 4-octet address. -/
  inet_ntop4 : (Nat → Char) → String
  /-- `inet_ntop(AF_INET6,...)` on a 16-octet address. -/
  inet_ntop6 : (Nat → Char) → String
  /-- Lua's number to string conversion (`"%.14g"`). -/
  lua_number2str : ℚ → String
  /-- Lua's string to number conversion, `none` when the string is no numeral. -/
  lua_str2number : String → Option ℚ
  /-- The C `double` addition `x + y`, on the values of the operands. -/
  double_add : ℚ → ℚ → ℚ
  /-- The C `double` division `x / y`, on the values of the operands. -/
  double_div : ℚ → ℚ → ℚ

/-! ## `luadns.c` -/

/-- Lines 161-177: builds the table of one angle and leaves it on the stack. -/
def push_dnsgpos_angle (lib : DnsLib) (L : lua_State) (pa : dnsgpos_angle) (lat : Bool) :
    Option lua_State := do
  let L := lua_createtable L 0 4
  let L := lua_pushinteger L pa.deg
  let L ← lua_setfield L (-2) "deg"
  let L := lua_pushinteger L pa.min
  let L ← lua_setfield L (-2) "min"
  let L := lua_pushnumber L (lib.double_add (pa.sec : ℚ) (lib.double_div (pa.frac : ℚ) 1000))
  let L ← lua_setfield L (-2) "sec"
  let L := lua_pushboolean L pa.nw
  let L ← lua_setfield L (-2) "nw"
  let L :=
    if lat then lua_pushlstring L (cstr (if pa.nw then "N" else "S")) 1
    else lua_pushlstring L (cstr (if pa.nw then "W" else "E")) 1
  lua_setfield L (-2) "hemisphere"

/-- Lines 199-206: the four fields every record table gets. -/
def decode_answer_common (lib : DnsLib) (L : lua_State) (a : dns_answer_t) :
    Option lua_State := do
  let L := lua_pushstring L a.generic.name
  let L ← lua_setfield L (-2) "name"
  let L := lua_pushinteger L a.generic.ttl
  let L ← lua_setfield L (-2) "ttl"
  let L := lua_pushstring L (lib.dns_class_text a.generic.class)
  let L ← lua_setfield L (-2) "class"
  let L := lua_pushstring L (lib.dns_type_text a.generic.type)
  lua_setfield L (-2) "type"

/-- Lines 208-336: the `switch` on the record type. -/
def decode_answer_rdata (lib : DnsLib) (L : lua_State) (a : dns_answer_t) :
    Option lua_State :=
  if a.generic.type = RR_A then do
    let L := lua_pushstring L (lib.inet_ntop4 a.a.address)
    let L ← lua_setfield L (-2) "address"
    let L := lua_pushlstring L a.a.address 4
    lua_setfield L (-2) "raw_address"
  else if a.generic.type = RR_SOA then do
    let L := lua_pushstring L a.soa.mname
    let L ← lua_setfield L (-2) "mname"
    let L := lua_pushstring L a.soa.rname
    let L ← lua_setfield L (-2) "rname"
    let L := lua_pushnumber L a.soa.serial
    let L ← lua_setfield L (-2) "serial"
    let L := lua_pushnumber L a.soa.refresh
    let L ← lua_setfield L (-2) "refresh"
    let L := lua_pushnumber L a.soa.retry
    let L ← lua_setfield L (-2) "retry"
    let L := lua_pushnumber L a.soa.expire
    let L ← lua_setfield L (-2) "expire"
    let L := lua_pushnumber L a.soa.minimum
    lua_setfield L (-2) "minimum"
  else if a.generic.type = RR_NAPTR then do
    let L := lua_pushinteger L a.naptr.order
    let L ← lua_setfield L (-2) "order"
    let L := lua_pushinteger L a.naptr.preference
    let L ← lua_setfield L (-2) "preference"
    let L := lua_pushstring L a.naptr.flags
    let L ← lua_setfield L (-2) "flags"
    let L := lua_pushstring L a.naptr.services
    let L ← lua_setfield L (-2) "services"
    let L := lua_pushstring L a.naptr.regexp
    let L ← lua_setfield L (-2) "regexp"
    let L := lua_pushstring L a.naptr.replacement
    lua_setfield L (-2) "replacement"
  else if a.generic.type = RR_AAAA then do
    let L := lua_pushstring L (lib.inet_ntop6 a.aaaa.address)
    let L ← lua_setfield L (-2) "address"
    let L := lua_pushlstring L a.aaaa.address 16
    lua_setfield L (-2) "raw_address"
  else if a.generic.type = RR_SRV then do
    let L := lua_pushinteger L a.srv.priority
    let L ← lua_setfield L (-2) "priority"
    let L := lua_pushinteger L a.srv.weight
    let L ← lua_setfield L (-2) "weight"
    let L := lua_pushinteger L a.srv.port
    let L ← lua_setfield L (-2) "port"
    let L := lua_pushstring L a.srv.target
    lua_setfield L (-2) "target"
  else if a.generic.type = RR_WKS then do
    let L := lua_pushstring L (lib.inet_ntop4 a.wks.address)
    let L ← lua_setfield L (-2) "address"
    let L := lua_pushlstring L a.wks.address 4
    let L ← lua_setfield L (-2) "raw_address"
    let L := lua_pushinteger L a.wks.protocol
    let L ← lua_setfield L (-2) "protocol"
    let L := lua_pushlstring L a.wks.bits a.wks.numbits
    lua_setfield L (-2) "bits"
  else if a.generic.type = RR_GPOS then do
    let L ← push_dnsgpos_angle lib L a.gpos.latitude true
    let L ← lua_setfield L (-2) "longitude"
    let L ← push_dnsgpos_angle lib L a.gpos.longitude false
    let L ← lua_setfield L (-2) "latitude"
    let L := lua_pushnumber L a.gpos.altitude
    lua_setfield L (-2) "altitude"
  else if a.generic.type = RR_LOC then do
    let L := lua_pushnumber L a.loc.size
    let L ← lua_setfield L (-2) "size"
    let L := lua_pushnumber L a.loc.horiz_pre
    let L ← lua_setfield L (-2) "horiz_pre"
    let L := lua_pushnumber L a.loc.vert_pre
    let L ← lua_setfield L (-2) "vert_pre"
    let L ← push_dnsgpos_angle lib L a.loc.latitude true
    let L ← lua_setfield L (-2) "latitude"
    let L ← push_dnsgpos_angle lib L a.loc.longitude false
    let L ← lua_setfield L (-2) "longitude"
    let L := lua_pushnumber L a.loc.altitude
    lua_setfield L (-2) "altitude"
  else if a.generic.type = RR_NS then do
    let L := lua_pushstring L a.ns.nsdname
    lua_setfield L (-2) "nsdname"
  else if a.generic.type = RR_CNAME then do
    let L := lua_pushstring L a.cname.cname
    lua_setfield L (-2) "cname"
  else if a.generic.type = RR_MX then do
    let L := lua_pushstring L a.mx.exchange
    let L ← lua_setfield L (-2) "exchange"
    let L := lua_pushinteger L a.mx.preference
    lua_setfield L (-2) "preference"
  else if a.generic.type = RR_PTR then do
    let L := lua_pushstring L a.ptr.ptr
    lua_setfield L (-2) "ptr"
  else if a.generic.type = RR_HINFO then do
    let L := lua_pushstring L a.hinfo.cpu
    let L ← lua_setfield L (-2) "cpu"
    let L := lua_pushstring L a.hinfo.os
    lua_setfield L (-2) "os"
  else if a.generic.type = RR_SPF ∨ a.generic.type = RR_TXT then do
    let L := lua_pushlstring L a.txt.text a.txt.len
    lua_setfield L (-2) "txt"
  else
    some L

/-- Lines 197-336: the record table of one record, left on the stack. -/
def decode_answer_record (lib : DnsLib) (L : lua_State) (a : dns_answer_t) :
    Option lua_State := do
  let L := lua_createtable L 0 0
  let L ← decode_answer_common lib L a
  decode_answer_rdata lib L a

/-- Lines 196-345: one iteration of the loop of `decode_answer`. -/
def decode_answer_body (lib : DnsLib) (pans : Nat → dns_answer_t) (dup : Bool)
    (i : Nat) (L : lua_State) : Option lua_State := do
  let L := lua_pushinteger L ((i + 1 : Nat) : Int)
  let L ← decode_answer_record lib L (pans i)
  let L ←
    if dup then do
      let L ← lua_getfield L (-1) "name"
      let L ← lua_pushvalue L (-2)
      lua_settable L (-5)
    else some L
  lua_settable L (-3)

/-- The loop `for (size_t i = 0 ; i < cnt ; i++)`: iterations `0 .. cnt-1`
in order, stopping at the first failure. -/
def decode_answer_loop (lib : DnsLib) (pans : Nat → dns_answer_t) (dup : Bool) :
    Nat → lua_State → Option lua_State
  | 0, L => some L
  | cnt + 1, L => (decode_answer_loop lib pans dup cnt L).bind
      (decode_answer_body lib pans dup cnt)

/-- Lines 181-349. -/
def decode_answer (lib : DnsLib) (L : lua_State) (tab : Int) (name : String)
    (pans : Nat → dns_answer_t) (cnt : Nat) (dup : Bool) : Option lua_State := do
  let L := lua_createtable L cnt 0
  let L ← decode_answer_loop lib pans dup cnt L
  lua_setfield L tab name

/-- How a C function called from Lua can end without returning. -/
inductive lua_Error where
  /-- `luaL_typerror(L,narg,tname)`: argument `narg` is not a `tname`. -/
  | typerror (narg : Int) (tname : String)
  /-- Misuse of the Lua API (undefined behaviour or an error raised by Lua). -/
  | api
  /-- A failed `assert`. -/
  | assertion
  deriving DecidableEq, Repr, Inhabited

/-- The outcome of a C function called from Lua: the values it returns
(first result first) and the state it leaves, or an error. -/
abbrev lua_Result := Except lua_Error (List TValue × lua_State)

/-- An API call that must not fail. -/
def api {α : Type} : Option α → Except lua_Error α
  | some a => .ok a
  | none => .error .api

/-- `return n;`: the top `n` stack values are the results. -/
def lua_return (L : lua_State) (n : Nat) : lua_Result :=
  .ok ((L.stack.take n).reverse, L)

/-- The C string a `const char *` into a Lua string's buffer denotes: the
characters before the first NUL. -/
def c_str (s : String) : String := String.mk (s.data.takeWhile (fun c => c ≠ Char.ofNat 0))

/-- `luaL_checklstring(L,narg,&size)`: a string is returned as it is, a
number is converted in place, anything else is a type error.  The size is
the length of the returned string. -/
def luaL_checklstring (lib : DnsLib) (L : lua_State) (narg : Int) :
    Except lua_Error (String × lua_State) :=
  match index2adr L narg with
  | some (.string s) => .ok (s, L)
  | some (.number n) => .ok (lib.lua_number2str n, lua_setslot L narg (.string (lib.lua_number2str n)))
  | some _ => .error (.typerror narg "string")
  | none => .error .api

/-- `luaL_optstring(L,narg,def)`. -/
def luaL_optstring (lib : DnsLib) (L : lua_State) (narg : Int) (d : String) :
    Except lua_Error (String × lua_State) :=
  if lua_isnoneornil L narg then .ok (d, L) else luaL_checklstring lib L narg

/-- The C conversion of a double to `int`: truncation towards zero (a value
out of range is reduced modulo 2^32). -/
def lua_number2int (n : ℚ) : Int :=
  ((n.num.tdiv n.den + 2 ^ 31) % 2 ^ 32) - 2 ^ 31

/-- `luaL_checkint(L,narg)`: a number, or a string that is a numeral. -/
def luaL_checkint (lib : DnsLib) (L : lua_State) (narg : Int) : Except lua_Error Int :=
  match index2adr L narg with
  | some (.number n) => .ok (lua_number2int n)
  | some (.string s) =>
      match lib.lua_str2number s with
      | some n => .ok (lua_number2int n)
      | none => .error (.typerror narg "number")
  | some _ => .error (.typerror narg "number")
  | none => .error .api

/-- `luaL_optint(L,narg,def)`. -/
def luaL_optint (lib : DnsLib) (L : lua_State) (narg : Int) (d : Int) :
    Except lua_Error Int :=
  if lua_isnoneornil L narg then .ok d else luaL_checkint lib L narg

/-- Lines 113-144: the `dns_query_t` handed to `dns_encode`, with the state
after the argument checks; an error when a check fails (`luaL_typerror` does
not return). -/
def dnslua_encode_query (lib : DnsLib) (L : lua_State) :
    Except lua_Error (dns_query_t × lua_State) :=
  if !lua_istable L 1 then .error (.typerror 1 "table")
  else do
    let L ← api (lua_getfield L 1 "question")
    let qidx := lua_gettop L
    if !lua_istable L qidx then .error (.typerror qidx "table")
    else do
      let L ← api (lua_getfield L qidx "name")
      let L ← api (lua_getfield L qidx "type")
      let L ← api (lua_getfield L qidx "class")
      let (name, L) ← luaL_checklstring lib L (-3)
      let (type, L) ← luaL_optstring lib L (-2) "A"
      let (cls, L) ← luaL_optstring lib L (-1) "IN"
      let domain : dns_question_t :=
        { name := c_str name, type := lib.dns_type_value (c_str type),
          «class» := lib.dns_class_value (c_str cls) }
      let L ← api (lua_getfield L 1 "id")
      let L ← api (lua_getfield L 1 "query")
      let L ← api (lua_getfield L 1 "rd")
      let L ← api (lua_getfield L 1 "opcode")
      let id ← luaL_optint lib L (-4) 1234
      let isquery := lua_toboolean L (-3)
      let rd := lua_toboolean L (-2)
      let (opcode, L) ← luaL_optstring lib L (-1) "QUERY"
      let query : dns_query_t :=
        { dns_query_t.zero with
          id := id
          query := isquery
          rd := rd
          opcode := lib.dns_op_value (c_str opcode)
          qdcount := 1
          questions := fun _ => domain }
      pure (query, L)

/-- Lines 104-157. -/
def dnslua_encode (lib : DnsLib) (L : lua_State) : lua_Result := do
  let (query, L) ← dnslua_encode_query lib L
  let (rc, buffer, len) := lib.dns_encode lib.sizeof_buffer_udp query
  if rc ≠ RCODE_OKAY then
    let L := lua_pushnil L
    let L := lua_pushstring L (lib.dns_rcode_text rc)
    lua_return L 2
  else
    let L := lua_pushlstring L buffer len
    lua_return L 1

/-- Lines 368-370: the octets copied into `data`, `size` being their number. -/
def dnslua_decode_data (lib : DnsLib) (luadata : String) : List Char :=
  let size := luadata.length
  let size := if size > lib.MAX_DNS_QUERY_SIZE then lib.MAX_DNS_QUERY_SIZE else size
  luadata.data.take size

/-- Lines 386-399: the header flags and the response code. -/
def dnslua_decode_header (L : lua_State) (tab : Int) (result : dns_query_t) :
    Except lua_Error lua_State := do
  let L := lua_pushboolean L result.aa
  let L ← api (lua_setfield L tab "aa")
  let L := lua_pushboolean L result.tc
  let L ← api (lua_setfield L tab "tc")
  let L := lua_pushboolean L result.rd
  let L ← api (lua_setfield L tab "rd")
  let L := lua_pushboolean L result.ra
  let L ← api (lua_setfield L tab "ra")
  let L := lua_pushboolean L result.ad
  let L ← api (lua_setfield L tab "ad")
  let L := lua_pushboolean L result.cd
  let L ← api (lua_setfield L tab "cd")
  let L := lua_pushinteger L result.rcode
  api (lua_setfield L tab "rcode")

/-- Lines 401-411: the question table, when the message has a question. -/
def dnslua_decode_question (lib : DnsLib) (L : lua_State) (tab : Int) (result : dns_query_t) :
    Except lua_Error lua_State :=
  if result.qdcount ≠ 0 then do
    let L := lua_createtable L 0 3
    let L := lua_pushstring L (result.questions 0).name
    let L ← api (lua_setfield L (-2) "name")
    let L := lua_pushstring L (lib.dns_class_text (result.questions 0).class)
    let L ← api (lua_setfield L (-2) "class")
    let L := lua_pushstring L (lib.dns_type_text (result.questions 0).type)
    let L ← api (lua_setfield L (-2) "type")
    api (lua_setfield L tab "question")
  else pure L

/-- Lines 369-372: what `dns_decode` returns for the Lua string `luadata`. -/
def dns_decode_call (lib : DnsLib) (luadata : String) : dns_rcode_t × dns_query_t :=
  lib.dns_decode lib.sizeof_decodebuf_8k (dnslua_decode_data lib luadata)

/-- Lines 369-419: `dnslua_decode` after the check of its argument. -/
def dnslua_decode_body (lib : DnsLib) (L : lua_State) (luadata : String) : lua_Result :=
  let (rc, result) := dns_decode_call lib luadata
  if rc ≠ RCODE_OKAY then
    let L := lua_pushnil L
    let L := lua_pushstring L (lib.dns_rcode_text rc)
    lua_return L 2
  else do
    let L := lua_createtable L 0 0
    let tab := lua_gettop L
    let L ← dnslua_decode_header L tab result
    let L ← dnslua_decode_question lib L tab result
    let L ← api (decode_answer lib L tab "answers" result.answers result.ancount false)
    let L ← api (decode_answer lib L tab "nameservers" result.nameservers result.nscount false)
    let L ← api (decode_answer lib L tab "additional" result.additional result.arcount true)
    if tab ≠ lua_gettop L then .error .assertion
    else lua_return L 1

/-- Lines 353-420. -/
def dnslua_decode (lib : DnsLib) (L : lua_State) : lua_Result := do
  let (luadata, L) ← luaL_checklstring lib L 1
  dnslua_decode_body lib L luadata

/-! ## Observing a state

What a Lua program can see of a value: its fields, and the whole tree of
tables below it. -/

/-- The value `v[k]` by raw access in the heap `H`; `nil` when `v` is no table. -/
def lua_index (H : List Table) (v k : TValue) : TValue :=
  match v with
  | .table r => luaH_get (H.getD r []) k
  | _ => .nil

/-- A Lua value with the tables written out instead of referenced. -/
inductive LuaData where
  | nil
  | boolean (b : Bool)
  | number (n : ℚ)
  | string (s : String)
  | table (entries : List (LuaData × LuaData))
  /-- A table below the depth asked for. -/
  | cut

/-- The value `v` in the heap `H` with its tables written out, `depth` levels deep. -/
def snapshot (H : List Table) : Nat → TValue → LuaData
  | _, .nil => .nil
  | _, .boolean b => .boolean b
  | _, .number n => .number n
  | _, .string s => .string s
  | 0, .table _ => .cut
  | n + 1, .table r => .table ((H.getD r []).map fun e => (snapshot H n e.1, snapshot H n e.2))

/-! ## The effect of `decode_answer`, written out

The tables `decode_answer` allocates and what it writes into them, as plain
data.  The functions of `luadns.c` above are proved to produce exactly this
(`decode_answer_eq`). -/

/-- The table `t` after the writes `t[k] = v` of `kvs`, first to last. -/
def withFields (t : Table) (kvs : List (String × TValue)) : Table :=
  kvs.foldl (fun t kv => luaH_set t (.string kv.1) kv.2) t

/-- The string `lua_pushlstring(L,s,len)` pushes. -/
def octets (s : Nat → Char) (len : Nat) : TValue :=
  .string (String.mk ((List.range len).map s))

/-- The writes of `push_dnsgpos_angle`. -/
def angleFields (lib : DnsLib) (pa : dnsgpos_angle) (lat : Bool) : List (String × TValue) :=
  [("deg", .number pa.deg), ("min", .number pa.min),
   ("sec", .number (lib.double_add (pa.sec : ℚ) (lib.double_div (pa.frac : ℚ) 1000))),
   ("nw", .boolean pa.nw),
   ("hemisphere",
     .string (if lat then (if pa.nw then "N" else "S") else (if pa.nw then "W" else "E")))]

/-- The writes every record table gets. -/
def commonFields (lib : DnsLib) (a : dns_answer_t) : List (String × TValue) :=
  [("name", .string a.generic.name), ("ttl", .number a.generic.ttl),
   ("class", .string (lib.dns_class_text a.generic.class)),
   ("type", .string (lib.dns_type_text a.generic.type))]

/-- What the `switch` of `decode_answer` does for a record: the writes into
the record table, first to last, and the tables it allocates on the way, in
allocation order; `b` is the reference the first of them gets. -/
def rdataSpec (lib : DnsLib) (a : dns_answer_t) (b : Nat) :
    List (String × TValue) × List Table :=
  if a.generic.type = RR_A then
    ([("address", .string (lib.inet_ntop4 a.a.address)), ("raw_address", octets a.a.address 4)],
     [])
  else if a.generic.type = RR_SOA then
    ([("mname", .string a.soa.mname), ("rname", .string a.soa.rname),
      ("serial", .number a.soa.serial), ("refresh", .number a.soa.refresh),
      ("retry", .number a.soa.retry), ("expire", .number a.soa.expire),
      ("minimum", .number a.soa.minimum)],
     [])
  else if a.generic.type = RR_NAPTR then
    ([("order", .number a.naptr.order), ("preference", .number a.naptr.preference),
      ("flags", .string a.naptr.flags), ("services", .string a.naptr.services),
      ("regexp", .string a.naptr.regexp), ("replacement", .string a.naptr.replacement)],
     [])
  else if a.generic.type = RR_AAAA then
    ([("address", .string (lib.inet_ntop6 a.aaaa.address)),
      ("raw_address", octets a.aaaa.address 16)],
     [])
  else if a.generic.type = RR_SRV then
    ([("priority", .number a.srv.priority), ("weight", .number a.srv.weight),
      ("port", .number a.srv.port), ("target", .string a.srv.target)],
     [])
  else if a.generic.type = RR_WKS then
    ([("address", .string (lib.inet_ntop4 a.wks.address)),
      ("raw_address", octets a.wks.address 4), ("protocol", .number a.wks.protocol),
      ("bits", octets a.wks.bits a.wks.numbits)],
     [])
  else if a.generic.type = RR_GPOS then
    ([("longitude", .table b), ("latitude", .table (b + 1)),
      ("altitude", .number a.gpos.altitude)],
     [withFields [] (angleFields lib a.gpos.latitude true),
      withFields [] (angleFields lib a.gpos.longitude false)])
  else if a.generic.type = RR_LOC then
    ([("size", .number a.loc.size), ("horiz_pre", .number a.loc.horiz_pre),
      ("vert_pre", .number a.loc.vert_pre), ("latitude", .table b),
      ("longitude", .table (b + 1)), ("altitude", .number a.loc.altitude)],
     [withFields [] (angleFields lib a.loc.latitude true),
      withFields [] (angleFields lib a.loc.longitude false)])
  else if a.generic.type = RR_NS then
    ([("nsdname", .string a.ns.nsdname)],
     [])
  else if a.generic.type = RR_CNAME then
    ([("cname", .string a.cname.cname)],
     [])
  else if a.generic.type = RR_MX then
    ([("exchange", .string a.mx.exchange), ("preference", .number a.mx.preference)],
     [])
  else if a.generic.type = RR_PTR then
    ([("ptr", .string a.ptr.ptr)],
     [])
  else if a.generic.type = RR_HINFO then
    ([("cpu", .string a.hinfo.cpu), ("os", .string a.hinfo.os)],
     [])
  else if a.generic.type = RR_SPF ∨ a.generic.type = RR_TXT then
    ([("txt", octets a.txt.text a.txt.len)],
     [])
  else ([], [])

/-- The tables one record allocates, the record table first; `r` is the
reference the record table gets. -/
def recordTables (lib : DnsLib) (a : dns_answer_t) (r : Nat) : List Table :=
  withFields [] (commonFields lib a ++ (rdataSpec lib a (r + 1)).1) :: (rdataSpec lib a (r + 1)).2

/-- The tables the first `k` records allocate when the first gets reference `b`. -/
def segs (lib : DnsLib) (pans : Nat → dns_answer_t) (b : Nat) : Nat → List Table
  | 0 => []
  | k + 1 => segs lib pans b k ++ recordTables lib (pans k) (b + (segs lib pans b k).length)

/-- The section table after the first `k` records. -/
def sect (lib : DnsLib) (pans : Nat → dns_answer_t) (dup : Bool) (b : Nat) : Nat → Table
  | 0 => []
  | k + 1 =>
    luaH_set
      (if dup then
        luaH_set (sect lib pans dup b k) (.string (pans k).generic.name)
          (.table (b + (segs lib pans b k).length))
      else sect lib pans dup b k)
      (.number ((k + 1 : Nat) : Int)) (.table (b + (segs lib pans b k).length))

/-- A value that is no table reference. -/
def isLeaf : TValue → Bool
  | .table _ => false
  | _ => true

/-- The writes of lines 386-399 into the message table. -/
def headerFields (q : dns_query_t) : List (String × TValue) :=
  [("aa", .boolean q.aa), ("tc", .boolean q.tc), ("rd", .boolean q.rd), ("ra", .boolean q.ra),
   ("ad", .boolean q.ad), ("cd", .boolean q.cd), ("rcode", .number q.rcode)]

/-- The writes of lines 403-409 into the question table. -/
def questionFields (lib : DnsLib) (q : dns_query_t) : List (String × TValue) :=
  [("name", .string (q.questions 0).name),
   ("class", .string (lib.dns_class_text (q.questions 0).class)),
   ("type", .string (lib.dns_type_text (q.questions 0).type))]

/-- What `dnslua_decode` allocates: the message table, the tables after it,
and the references of the three section tables. -/
structure DecodedLayout where
  msg : Table
  rest : List Table
  answers : Nat
  nameservers : Nat
  additional : Nat

/-- The tables `dnslua_decode` allocates for the query `q` when the message
table gets reference `m`. -/
def decodedTables (lib : DnsLib) (q : dns_query_t) (m : Nat) : DecodedLayout :=
  let Q : List Table := if q.qdcount ≠ 0 then [withFields [] (questionFields lib q)] else []
  let msg0 : Table :=
    if q.qdcount ≠ 0 then withFields [] (headerFields q ++ [("question", .table (m + 1))])
    else withFields [] (headerFields q)
  let tA := m + 1 + Q.length
  let Y1 := Q ++ sect lib q.answers false (tA + 1) q.ancount :: segs lib q.answers (tA + 1) q.ancount
  let tN := m + 1 + Y1.length
  let Y2 := Y1 ++ sect lib q.nameservers false (tN + 1) q.nscount ::
    segs lib q.nameservers (tN + 1) q.nscount
  let tR := m + 1 + Y2.length
  let Y3 := Y2 ++ sect lib q.additional true (tR + 1) q.arcount ::
    segs lib q.additional (tR + 1) q.arcount
  { msg := withFields msg0
      [("answers", .table tA), ("nameservers", .table tN), ("additional", .table tR)]
    rest := Y3
    answers := tA
    nameservers := tN
    additional := tR }

/-! ## The effect of `dnslua_encode`'s argument checks, written out -/

/-- The field `k` of the table object `r`. -/
def fld (H : List Table) (r : Nat) (k : String) : TValue :=
  luaH_get (H.getD r []) (.string k)

/-- What `luaL_checklstring` makes of the value of argument `narg`. -/
def strArg (lib : DnsLib) (narg : Int) : TValue → Except lua_Error String
  | .string s => .ok s
  | .number n => .ok (lib.lua_number2str n)
  | _ => .error (.typerror narg "string")

/-- What `luaL_optstring` makes of the value of argument `narg`. -/
def optStrArg (lib : DnsLib) (narg : Int) (v : TValue) (d : String) : Except lua_Error String :=
  if v = .nil then .ok d else strArg lib narg v

/-- What `luaL_optint` makes of the value of argument `narg`. -/
def optIntArg (lib : DnsLib) (narg : Int) (v : TValue) (d : Int) : Except lua_Error Int :=
  match v with
  | .nil => .ok d
  | .number n => .ok (lua_number2int n)
  | .string s =>
      match lib.lua_str2number s with
      | some n => .ok (lua_number2int n)
      | none => .error (.typerror narg "number")
  | _ => .error (.typerror narg "number")

/-- What `lua_toboolean` makes of a value. -/
def truthy : TValue → Bool
  | .nil => false
  | .boolean b => b
  | _ => true

/-- The stack slot of a string argument after the check: a number has become
a string. -/
def strSlot (lib : DnsLib) : TValue → TValue
  | .number n => .string (lib.lua_number2str n)
  | v => v

/-- The query `dnslua_encode` builds from the message table `m` of the heap
`H`, or the error it raises. -/
def encodeQuerySpec (lib : DnsLib) (H : List Table) (m : Nat) : Except lua_Error dns_query_t :=
  match fld H m "question" with
  | .table qr =>
    if qr < H.length then do
      let name ← strArg lib (-3) (fld H qr "name")
      let type ← optStrArg lib (-2) (fld H qr "type") "A"
      let cls ← optStrArg lib (-1) (fld H qr "class") "IN"
      let id ← optIntArg lib (-4) (fld H m "id") 1234
      let opcode ← optStrArg lib (-1) (fld H m "opcode") "QUERY"
      pure { dns_query_t.zero with
        id := id
        query := truthy (fld H m "query")
        rd := truthy (fld H m "rd")
        opcode := lib.dns_op_value (c_str opcode)
        qdcount := 1
        questions := fun _ =>
          { name := c_str name, type := lib.dns_type_value (c_str type),
            «class» := lib.dns_class_value (c_str cls) } }
    else .error .api
  | _ => .error (.typerror 2 "table")

/-- The stack `dnslua_encode` has built when its argument checks are through. -/
def encodeStack (lib : DnsLib) (H : List Table) (m : Nat) : List TValue :=
  match fld H m "question" with
  | .table qr =>
    [strSlot lib (fld H m "opcode"), fld H m "rd", fld H m "query", fld H m "id",
     strSlot lib (fld H qr "class"), strSlot lib (fld H qr "type"),
     strSlot lib (fld H qr "name"), .table qr, .table m]
  | _ => []

/-- The heap `Hf` holds, from reference `t` on, the section table of the
records `pans 0 .. pans (cnt-1)` followed by the tables of these records. -/
def HoldsSection (lib : DnsLib) (Hf : List Table) (t : Nat) (pans : Nat → dns_answer_t)
    (cnt : Nat) (dup : Bool) : Prop :=
  ∃ X Z, Hf = X ++ sect lib pans dup (X.length + 1) cnt :: (segs lib pans (X.length + 1) cnt ++ Z) ∧
    X.length = t

/-! ## A model of the DNS library

`dns.h`, `codec.c` and `mappings.c` are not among the sources.  The model
below follows the specification (and RFC 1035, which it cites) for the header,
the question and the simplest records; it is the instance of `DnsLib` the
examples run on.  The theorems about `luadns.c` hold for every `DnsLib`. -/

namespace Model

def RCODE_FORMAT_ERROR : dns_rcode_t := 1
def RCODE_SERVER_FAILURE : dns_rcode_t := 2
def RCODE_NAME_ERROR : dns_rcode_t := 3
def RCODE_NOT_IMPLEMENTED : dns_rcode_t := 4

/-- Modelled from the spec: the mnemonics of the record types of §3 (the
table of `mappings.c` is absent from the sources). -/
def typeTable : List (String × dns_type_t) :=
  [("A", 1), ("NS", 2), ("CNAME", 5), ("SOA", 6), ("WKS", 11), ("PTR", 12), ("HINFO", 13),
   ("MX", 15), ("TXT", 16), ("GPOS", 27), ("AAAA", 28), ("LOC", 29), ("SRV", 33),
   ("NAPTR", 35), ("SPF", 99)]

/-- Modelled from the spec: the class mnemonics (absent from the sources). -/
def classTable : List (String × dns_class_t) :=
  [("IN", 1), ("CS", 2), ("CH", 3), ("HS", 4)]

/-- Modelled from the spec: the opcode mnemonics (absent from the sources). -/
def opTable : List (String × dns_op_t) :=
  [("QUERY", 0), ("IQUERY", 1), ("STATUS", 2), ("NOTIFY", 4), ("UPDATE", 5)]

/-- Modelled from the spec: the response code texts (absent from the sources). -/
def rcodeTable : List (dns_rcode_t × String) :=
  [(0, "No error"), (1, "Format error"), (2, "Server failure"), (3, "No such domain"),
   (4, "Not implemented"), (5, "Refused")]

/-- Modelled from the spec: mnemonic to code, letter case ignored; an unknown
mnemonic gives 0. -/
def valueOf (table : List (String × Nat)) (tag : String) : Nat :=
  match table.find? (fun e => e.1 = String.mk (tag.data.map Char.toUpper)) with
  | some e => e.2
  | none => 0

/-- Modelled from the spec: code to mnemonic; an unknown code gives `X-UNKN`. -/
def textOf (table : List (String × Nat)) (code : Nat) : String :=
  match table.find? (fun e => e.2 = code) with
  | some e => e.1
  | none => "X-UNKN"

def rcodeText (rc : dns_rcode_t) : String :=
  match rcodeTable.find? (fun e => e.1 = rc) with
  | some e => e.2
  | none => "Unknown error"

/-- The labels of a dotted name: the pieces between the dots. -/
def splitLabels : List Char → List Char → List (List Char)
  | acc, [] => [acc.reverse]
  | acc, c :: cs => if c = '.' then acc.reverse :: splitLabels [] cs else splitLabels (c :: acc) cs

/-- Modelled from the spec: §4.1 Encode.  Length-prefixed labels and a final
zero octet, no compression; a label of 0 or more than 63 octets or a name of
more than 255 octets fails. -/
def encodeName (name : String) : Option (List Nat) :=
  let labels := if name = "" then [] else splitLabels [] name.data
  if labels.all (fun l => 0 < l.length ∧ l.length ≤ 63) then
    let out : List Nat := (labels.map fun l => l.length :: l.map Char.toNat).flatten ++ [0]
    if out.length ≤ 255 then some out else none
  else none

def be16 (n : Nat) : List Nat := [n / 256 % 256, n % 256]

def bit (b : Bool) (w : Nat) : Nat := if b then w else 0

/-- Modelled from the spec: the 12-octet header of §4.4, the flag bits in the
standard layout. -/
def encodeHeader (q : dns_query_t) : List Nat :=
  be16 (q.id % 65536).toNat ++
  [bit (!q.query) 128 + (q.opcode % 16) * 8 + bit q.aa 4 + bit q.tc 2 + bit q.rd 1,
   bit q.ra 128 + bit q.ad 32 + bit q.cd 16 + (q.rcode % 16).toNat] ++
  be16 q.qdcount ++ be16 q.ancount ++ be16 q.nscount ++ be16 q.arcount

/-- Modelled from the spec: §4.3 Encode. -/
def encodeQuestion (d : dns_question_t) : Option (List Nat) :=
  (encodeName d.name).map fun n => n ++ be16 d.type ++ be16 d.class

def encodeQuestions (questions : Nat → dns_question_t) : Nat → Option (List Nat)
  | 0 => some []
  | n + 1 => do
      let pre ← encodeQuestions questions n
      let q ← encodeQuestion (questions n)
      pure (pre ++ q)

/-- The contents of a buffer holding the octets `bs`, zero beyond them. -/
def buffer (bs : List Nat) : Nat → Char := fun i => Char.ofNat (bs.getD i 0)

/-- Modelled from the spec: §4.4 Encode for a message without records (the
record encodings of §4.2 are not modelled; a message with records is refused).
A failure leaves the header in the buffer and the length as it was. -/
def dns_encode (cap : Nat) (q : dns_query_t) : dns_rcode_t × (Nat → Char) × Nat :=
  if q.ancount ≠ 0 ∨ q.nscount ≠ 0 ∨ q.arcount ≠ 0 then
    (RCODE_NOT_IMPLEMENTED, buffer [], cap)
  else
    match encodeQuestions q.questions q.qdcount with
    | none => (RCODE_NAME_ERROR, buffer ((encodeHeader q).take cap), cap)
    | some qs =>
      let out := encodeHeader q ++ qs
      if out.length ≤ cap then (RCODE_OKAY, buffer out, out.length)
      else (RCODE_SERVER_FAILURE, buffer (out.take cap), cap)

/-- Modelled from the spec: §4.1 Decode.  From `off`, labels are collected
until the zero octet; a compression pointer moves to the offset it names.
`fuel` bounds the number of steps, so a pointer loop fails.  Returns the
labels and the offset after the name where it was first left. -/
def decodeLabels (buf : List Nat) : Nat → Nat → Option Nat → List (List Char) →
    Option (List (List Char) × Nat)
  | 0, _, _, _ => none
  | fuel + 1, off, ret, acc =>
    match buf[off]? with
    | none => none
    | some len =>
      if len = 0 then some (acc.reverse, ret.getD (off + 1))
      else if len < 64 then
        if off + 1 + len ≤ buf.length then
          decodeLabels buf fuel (off + 1 + len) ret
            (((buf.drop (off + 1)).take len).map Char.ofNat :: acc)
        else none
      else if 192 ≤ len then
        match buf[off + 1]? with
        | none => none
        | some lo => decodeLabels buf fuel ((len - 192) * 256 + lo) (some (ret.getD (off + 2))) acc
      else none

def joinLabels : List (List Char) → List Char
  | [] => []
  | [l] => l
  | l :: ls => l ++ '.' :: joinLabels ls

def decodeName (buf : List Nat) (off : Nat) : Option (String × Nat) := do
  let (labels, next) ← decodeLabels buf (buf.length + 1) off none []
  let name := joinLabels labels
  if name.length ≤ 255 then pure (String.mk name, next) else none

def rd16 (buf : List Nat) (off : Nat) : Option Nat := do
  let hi ← buf[off]?
  let lo ← buf[off + 1]?
  pure (hi * 256 + lo)

/-- Modelled from the spec: §4.3 Decode. -/
def decodeQuestion (buf : List Nat) (off : Nat) : Option (dns_question_t × Nat) := do
  let (name, off) ← decodeName buf off
  let type ← rd16 buf off
  let cls ← rd16 buf (off + 2)
  pure ({ name := name, type := type, «class» := cls }, off + 4)

def decodeQuestions (buf : List Nat) : Nat → Nat → Option (List dns_question_t × Nat)
  | 0, off => some ([], off)
  | n + 1, off => do
      let (q, off) ← decodeQuestion buf off
      let (qs, off) ← decodeQuestions buf n off
      pure (q :: qs, off)

def testBit (n w : Nat) : Bool := n / w % 2 = 1

def rd32 (buf : List Nat) (off : Nat) : Option Nat := do
  let hi ← rd16 buf off
  let lo ← rd16 buf (off + 2)
  pure (hi * 65536 + lo)

/-- The octets of `buf` from `off` on, as C memory. -/
def memory (buf : List Nat) (off : Nat) : Nat → Char := fun i => Char.ofNat (buf.getD (off + i) 0)

/-- A decoding step: a value, or the response code that reports the failure. -/
def orFail {α : Type} (rc : dns_rcode_t) : Option α → Except dns_rcode_t α
  | some a => .ok a
  | none => .error rc

/-- Modelled from the spec: the RDATA of §4.2 Decode for A, AAAA, NS, CNAME,
PTR and MX.  The layouts of the other supported types are not modelled (such a
record is refused); a type outside the supported set gives a record with the
common fields only. -/
def decodeRdata (buf : List Nat) (g : dns_generic_t) (off rdlen : Nat) :
    Except dns_rcode_t dns_answer_t :=
  let r : dns_answer_t := { dns_answer_t.zero with generic := g }
  if g.type = RR_A then
    if rdlen = 4 then .ok { r with a := ⟨memory buf off⟩ } else .error RCODE_FORMAT_ERROR
  else if g.type = RR_AAAA then
    if rdlen = 16 then .ok { r with aaaa := ⟨memory buf off⟩ } else .error RCODE_FORMAT_ERROR
  else if g.type = RR_NS then do
    let (n, _) ← orFail RCODE_FORMAT_ERROR (decodeName buf off)
    pure { r with ns := ⟨n⟩ }
  else if g.type = RR_CNAME then do
    let (n, _) ← orFail RCODE_FORMAT_ERROR (decodeName buf off)
    pure { r with cname := ⟨n⟩ }
  else if g.type = RR_PTR then do
    let (n, _) ← orFail RCODE_FORMAT_ERROR (decodeName buf off)
    pure { r with ptr := ⟨n⟩ }
  else if g.type = RR_MX then do
    let pref ← orFail RCODE_FORMAT_ERROR (rd16 buf off)
    let (n, _) ← orFail RCODE_FORMAT_ERROR (decodeName buf (off + 2))
    pure { r with mx := ⟨pref, n⟩ }
  else if g.type ∈ [RR_SOA, RR_HINFO, RR_TXT, RR_SPF, RR_WKS, RR_SRV, RR_NAPTR, RR_LOC, RR_GPOS] then
    .error RCODE_NOT_IMPLEMENTED
  else .ok r

/-- Modelled from the spec: §4.2 Decode.  Owner name, type, class, TTL and
RDATA length, then the RDATA; RDATA running past the buffer is a failure. -/
def decodeRecord (buf : List Nat) (off : Nat) : Except dns_rcode_t (dns_answer_t × Nat) := do
  let (name, off) ← orFail RCODE_FORMAT_ERROR (decodeName buf off)
  let type ← orFail RCODE_FORMAT_ERROR (rd16 buf off)
  let cls ← orFail RCODE_FORMAT_ERROR (rd16 buf (off + 2))
  let ttl ← orFail RCODE_FORMAT_ERROR (rd32 buf (off + 4))
  let rdlen ← orFail RCODE_FORMAT_ERROR (rd16 buf (off + 8))
  if off + 10 + rdlen ≤ buf.length then do
    let r ← decodeRdata buf ⟨name, type, cls, ttl⟩ (off + 10) rdlen
    pure (r, off + 10 + rdlen)
  else .error RCODE_FORMAT_ERROR

def decodeRecords (buf : List Nat) : Nat → Nat → Except dns_rcode_t (List dns_answer_t × Nat)
  | 0, off => .ok ([], off)
  | n + 1, off => do
      let (r, off) ← decodeRecord buf off
      let (rs, off) ← decodeRecords buf n off
      pure (r :: rs, off)

/-- Modelled from the spec: §4.4 Decode.  Fewer than 12 octets, a bad name, a
truncated question or record is a format error. -/
def dns_decode (_bufsize : Nat) (data : List Char) : dns_rcode_t × dns_query_t :=
  let buf := data.map Char.toNat
  if buf.length < 12 then (RCODE_FORMAT_ERROR, dns_query_t.zero)
  else
    let f1 := buf.getD 2 0
    let f2 := buf.getD 3 0
    let cnt (i : Nat) : Nat := buf.getD i 0 * 256 + buf.getD (i + 1) 0
    let sections : Except dns_rcode_t
        (List dns_question_t × List dns_answer_t × List dns_answer_t × List dns_answer_t) := do
      let (qs, off) ← orFail RCODE_FORMAT_ERROR (decodeQuestions buf (cnt 4) 12)
      let (an, off) ← decodeRecords buf (cnt 6) off
      let (ns, off) ← decodeRecords buf (cnt 8) off
      let (ar, _) ← decodeRecords buf (cnt 10) off
      pure (qs, an, ns, ar)
    match sections with
    | .error rc => (rc, dns_query_t.zero)
    | .ok (qs, an, ns, ar) =>
      (RCODE_OKAY,
        { id := cnt 0
          query := !testBit f1 128
          opcode := f1 / 8 % 16
          aa := testBit f1 4
          tc := testBit f1 2
          rd := testBit f1 1
          ra := testBit f2 128
          ad := testBit f2 32
          cd := testBit f2 16
          rcode := f2 % 16
          qdcount := cnt 4
          ancount := cnt 6
          nscount := cnt 8
          arcount := cnt 10
          questions := fun i => qs.getD i ⟨"", 0, 0⟩
          answers := fun i => an.getD i dns_answer_t.zero
          nameservers := fun i => ns.getD i dns_answer_t.zero
          additional := fun i => ar.getD i dns_answer_t.zero })

/-- The dotted-quad text of an IPv4 address. -/
def inet_ntop4 (addr : Nat → Char) : String :=
  ".".intercalate ((List.range 4).map fun i => toString (addr i).toNat)

/-- Decimal digits of an integral number; other numbers are not formatted
as C does in this model. -/
def lua_number2str (n : ℚ) : String :=
  if n.den = 1 then toString n.num else toString n.num ++ "/" ++ toString n.den

/-- A string of decimal digits as a number. -/
def lua_str2number (s : String) : Option ℚ :=
  if s.data ≠ [] ∧ s.data.all Char.isDigit then some (s.toNat! : ℚ) else none

end Model

/-- The model of the DNS library, with plain models of `inet_ntop` and of the
Lua number conversions, and exact arithmetic in place of the double operations. -/
def modelLib : DnsLib where
  MAX_DNS_QUERY_SIZE := 512
  sizeof_buffer_udp := 512
  sizeof_decodebuf_8k := 8192
  dns_encode := Model.dns_encode
  dns_decode := Model.dns_decode
  dns_type_value := Model.valueOf Model.typeTable
  dns_class_value := Model.valueOf Model.classTable
  dns_op_value := Model.valueOf Model.opTable
  dns_type_text := Model.textOf Model.typeTable
  dns_class_text := Model.textOf Model.classTable
  dns_rcode_text := Model.rcodeText
  inet_ntop4 := Model.inet_ntop4
  inet_ntop6 := fun addr =>
    ":".intercalate ((List.range 8).map fun i =>
      String.mk (Nat.toDigits 16 ((addr (2 * i)).toNat * 256 + (addr (2 * i + 1)).toNat)))
  lua_number2str := Model.lua_number2str
  lua_str2number := Model.lua_str2number
  double_add := fun x y => x + y
  double_div := fun x y => x / y

/-- The message of the specification's example,
`{id=1234, query=true, rd=true, opcode="QUERY",
  question={name="example.com", type="A", class="IN"}}`,
as the only argument of a call. -/
def exampleCall : lua_State where
  stack := [.table 0]
  heap :=
    [[(.string "id", .number 1234), (.string "query", .boolean true), (.string "rd", .boolean true),
      (.string "opcode", .string "QUERY"), (.string "question", .table 1)],
     [(.string "name", .string "example.com"), (.string "type", .string "A"),
      (.string "class", .string "IN")]]

/-! ## Properties of a decoded section -/

/-- The record types the `switch` of `decode_answer` has a case for. -/
def supportedTypes : List dns_type_t :=
  [RR_A, RR_NS, RR_CNAME, RR_SOA, RR_PTR, RR_HINFO, RR_MX, RR_TXT, RR_SPF, RR_WKS, RR_SRV,
   RR_NAPTR, RR_LOC, RR_GPOS, RR_AAAA]

/-- Entry `j + 1` of the section table `T` is, with everything below it, what
`decode_answer` makes of the record `pans j` converted alone in an empty state. -/
def EntryConverted (lib : DnsLib) (Hf : List Table) (T : TValue) (pans : Nat → dns_answer_t)
    (j : Nat) : Prop :=
  ∀ n, ∃ L1, decode_answer_record lib ⟨[], []⟩ (pans j) = some L1 ∧
    snapshot Hf n (lua_index Hf T (.number ((j + 1 : Nat) : ℚ))) = snapshot L1.heap n (.table 0)

/-- The message table `msg` of the heap `Hf` carries the header flags and the
response code of the query `q`, its first question when it has one, and three
section tables with positional entries at exactly `1 .. ancount`,
`1 .. nscount` and `1 .. arcount`. -/
def MessageOf (lib : DnsLib) (Hf : List Table) (msg : TValue) (q : dns_query_t) : Prop :=
  lua_index Hf msg (.string "aa") = .boolean q.aa ∧
  lua_index Hf msg (.string "tc") = .boolean q.tc ∧
  lua_index Hf msg (.string "rd") = .boolean q.rd ∧
  lua_index Hf msg (.string "ra") = .boolean q.ra ∧
  lua_index Hf msg (.string "ad") = .boolean q.ad ∧
  lua_index Hf msg (.string "cd") = .boolean q.cd ∧
  lua_index Hf msg (.string "rcode") = .number q.rcode ∧
  (if q.qdcount ≠ 0 then
    lua_index Hf (lua_index Hf msg (.string "question")) (.string "name") =
      .string (q.questions 0).name ∧
    lua_index Hf (lua_index Hf msg (.string "question")) (.string "class") =
      .string (lib.dns_class_text (q.questions 0).class) ∧
    lua_index Hf (lua_index Hf msg (.string "question")) (.string "type") =
      .string (lib.dns_type_text (q.questions 0).type)
  else lua_index Hf msg (.string "question") = .nil) ∧
  (∀ x : ℚ, lua_index Hf (lua_index Hf msg (.string "answers")) (.number x) ≠ .nil ↔
    ∃ i, i < q.ancount ∧ x = ((i + 1 : Nat) : ℚ)) ∧
  (∀ x : ℚ, lua_index Hf (lua_index Hf msg (.string "nameservers")) (.number x) ≠ .nil ↔
    ∃ i, i < q.nscount ∧ x = ((i + 1 : Nat) : ℚ)) ∧
  (∀ x : ℚ, lua_index Hf (lua_index Hf msg (.string "additional")) (.number x) ≠ .nil ↔
    ∃ i, i < q.arcount ∧ x = ((i + 1 : Nat) : ℚ))

/-- In the section table `T`, every record of an unsupported type has a table
with the keys `name`, `ttl`, `class`, `type` and no other, and every record of
the section is converted as it is alone. -/
def UnknownTypesBare (lib : DnsLib) (Hf : List Table) (T : TValue) (pans : Nat → dns_answer_t)
    (cnt : Nat) : Prop :=
  ∀ i, i < cnt → (pans i).generic.type ∉ supportedTypes →
    (∀ k, lua_index Hf (lua_index Hf T (.number ((i + 1 : Nat) : ℚ))) k ≠ .nil ↔
      (k = .string "name" ∨ k = .string "ttl" ∨ k = .string "class" ∨ k = .string "type")) ∧
    ∀ j, j < cnt → EntryConverted lib Hf T pans j

/-! ## Example inputs -/

/-- A response with the question `a.b A IN` and three additional records:
`a.b A 1.2.3.4` (ttl 300), `x.y` of the unsupported type 41 (ttl 60), and
`a.b A 5.6.7.8` (ttl 10), the owner names of the first and the third written
as compression pointers to the question. -/
def exampleResponse : String :=
  String.mk ([0, 1, 129, 128, 0, 1, 0, 0, 0, 0, 0, 3,
    1, 97, 1, 98, 0, 0, 1, 0, 1,
    192, 12, 0, 1, 0, 1, 0, 0, 1, 44, 0, 4, 1, 2, 3, 4,
    1, 120, 1, 121, 0, 0, 41, 0, 1, 0, 0, 0, 60, 0, 2, 9, 9,
    192, 12, 0, 1, 0, 1, 0, 0, 0, 10, 0, 4, 5, 6, 7, 8].map Char.ofNat)

/-- A GPOS record at latitude 10°20'30.400" N, longitude 1°2'3.004" E,
altitude 5. -/
def exampleGpos : dns_answer_t :=
  { dns_answer_t.zero with
    generic := ⟨"a.b", RR_GPOS, 1, 300⟩
    gpos := { latitude := ⟨10, 20, 30, 400, true⟩, longitude := ⟨1, 2, 3, 4, false⟩,
              altitude := 5 } }

/-- The LOC record at the position of `exampleGpos`. -/
def exampleLoc : dns_answer_t :=
  { dns_answer_t.zero with
    generic := ⟨"a.b", RR_LOC, 1, 300⟩
    loc := { size := 1, horiz_pre := 1, vert_pre := 1, latitude := ⟨10, 20, 30, 400, true⟩,
             longitude := ⟨1, 2, 3, 4, false⟩, altitude := 5 } }

/-- A call with the message `{question={name="example.com"}}`: everything
that has a default is left out. -/
def minimalCall : lua_State where
  stack := [.table 0]
  heap := [[(.string "question", .table 1)], [(.string "name", .string "example.com")]]

/-- A call with the message `{question={}}`: the question has no name. -/
def namelessCall : lua_State where
  stack := [.table 0]
  heap := [[(.string "question", .table 1)], []]

/-- The heap `H` after the write `t[k] = v` to the table object `r`. -/
def heap_setfield (H : List Table) (r : Nat) (k : String) (v : TValue) : List Table :=
  H.set r (luaH_set (H.getD r []) (.string k) v)

/-- Called on the message table `m`, `dnslua_encode` builds the same query and
returns the same values in the heaps `H` and `H'`. -/
def SameEncoding (lib : DnsLib) (m : Nat) (H H' : List Table) : Prop :=
  (dnslua_encode_query lib ⟨[.table m], H⟩).map Prod.fst =
      (dnslua_encode_query lib ⟨[.table m], H'⟩).map Prod.fst ∧
    (dnslua_encode lib ⟨[.table m], H⟩).map Prod.fst =
      (dnslua_encode lib ⟨[.table m], H'⟩).map Prod.fst

/-! ## The Lua API on the stack shapes `luadns.c` builds -/

theorem luaH_get_filter (t : Table) (k k' : TValue) :
    luaH_get (t.filter (fun e => !decide (e.1 = k))) k' =
      if k = k' then .nil else luaH_get t k' := by
  induction t with
  | nil => simp [luaH_get]
  | cons e t ih =>
    obtain ⟨a, b⟩ := e
    by_cases hak : a = k
    · simp only [List.filter_cons, hak, decide_True, Bool.not_true, Bool.false_eq_true,
        if_false, ih, luaH_get]
      by_cases hk : k = k' <;> simp [hk]
    · simp only [List.filter_cons, hak, decide_False, Bool.not_false, if_true, luaH_get, ih]
      by_cases hk : k = k'
      · subst hk; simp [hak]
      · simp [hk]

theorem luaH_get_set (t : Table) (k v k' : TValue) :
    luaH_get (luaH_set t k v) k' = if k = k' then v else luaH_get t k' := by
  unfold luaH_set
  by_cases hv : v = .nil
  · simp [hv, luaH_get_filter]
  · simp only [hv, if_false, luaH_get, luaH_get_filter]
    by_cases hk : k = k' <;> simp [hk]

theorem getElem?_mid {α : Type} (X Y : List α) (t : α) : (X ++ t :: Y)[X.length]? = some t := by
  rw [List.getElem?_append_right (le_refl _)]; simp

theorem set_mid {α : Type} (X Y : List α) (t t' : α) :
    (X ++ t :: Y).set X.length t' = X ++ t' :: Y := by
  simp

theorem index2adr_neg1 (v : TValue) (S : List TValue) (H : List Table) :
    index2adr ⟨v :: S, H⟩ (-1) = some v := by
  simp [index2adr]

theorem index2adr_neg2 (v w : TValue) (S : List TValue) (H : List Table) :
    index2adr ⟨v :: w :: S, H⟩ (-2) = some w := by
  simp [index2adr]

theorem lua_setfield_neg2 (v : TValue) (S : List TValue) (X Y : List Table) (t : Table)
    (k : String) :
    lua_setfield ⟨v :: .table X.length :: S, X ++ t :: Y⟩ (-2) k =
      some ⟨.table X.length :: S, X ++ luaH_set t (.string k) v :: Y⟩ := by
  simp only [lua_setfield, index2adr_neg2, getElem?_mid, set_mid, Option.bind_eq_bind, Option.some_bind, Option.pure_def]

theorem cstr_one (s : String) (c : Char) (hs : s.data = [c]) :
    String.mk ((List.range 1).map (cstr s)) = s := by
  cases s with
  | mk d => simp at hs; subst hs; simp [cstr, List.range_succ]

theorem push_dnsgpos_angle_eq (lib : DnsLib) (S : List TValue) (H : List Table) (pa : dnsgpos_angle)
    (lat : Bool) :
    push_dnsgpos_angle lib ⟨S, H⟩ pa lat =
      some ⟨.table H.length :: S, H ++ [withFields [] (angleFields lib pa lat)]⟩ := by
  cases lat <;> cases hnw : pa.nw <;>
  simp [push_dnsgpos_angle, lua_createtable, lua_pushinteger, lua_pushnumber, lua_pushboolean,
    lua_pushlstring, lua_push, lua_setfield_neg2, withFields, angleFields, hnw,
    cstr_one _ _ rfl]

theorem push_dnsgpos_angle_mid (lib : DnsLib) (S : List TValue) (X Y : List Table) (t : Table)
    (pa : dnsgpos_angle) (lat : Bool) :
    push_dnsgpos_angle lib ⟨S, X ++ t :: Y⟩ pa lat =
      some ⟨.table (X.length + 1 + Y.length) :: S,
        X ++ t :: (Y ++ [withFields [] (angleFields lib pa lat)])⟩ := by
  rw [push_dnsgpos_angle_eq]
  simp only [List.length_append, List.length_cons, List.append_assoc, List.cons_append,
    Nat.add_assoc, Nat.add_comm 1]

theorem decode_answer_common_eq (lib : DnsLib) (S : List TValue) (X Y : List Table) (t : Table)
    (a : dns_answer_t) :
    decode_answer_common lib ⟨.table X.length :: S, X ++ t :: Y⟩ a =
      some ⟨.table X.length :: S, X ++ withFields t (commonFields lib a) :: Y⟩ := by
  simp [decode_answer_common, lua_pushinteger, lua_pushstring, lua_push, lua_setfield_neg2,
    withFields, commonFields]

theorem decode_answer_rdata_eq (lib : DnsLib) (S : List TValue) (X : List Table) (t : Table)
    (a : dns_answer_t) :
    decode_answer_rdata lib ⟨.table X.length :: S, X ++ [t]⟩ a =
      some ⟨.table X.length :: S,
        X ++ withFields t (rdataSpec lib a (X.length + 1)).1 ::
          (rdataSpec lib a (X.length + 1)).2⟩ := by
  unfold decode_answer_rdata rdataSpec
  by_cases h0 : a.generic.type = RR_A
  · rw [if_pos h0, if_pos h0]
    simp only [lua_pushinteger, lua_pushnumber, lua_pushstring, lua_pushlstring, lua_push,
      lua_setfield_neg2, push_dnsgpos_angle_mid, withFields, octets, Option.bind_eq_bind,
      Option.some_bind, Option.pure_def, List.foldl_cons, List.foldl_nil, List.append_nil,
      List.nil_append, List.length_nil, List.length_cons, List.cons_append, Nat.add_zero,
      List.singleton_append, Nat.add_assoc, Nat.reduceAdd]
  rw [if_neg h0, if_neg h0]
  by_cases h1 : a.generic.type = RR_SOA
  · rw [if_pos h1, if_pos h1]
    simp only [lua_pushinteger, lua_pushnumber, lua_pushstring, lua_pushlstring, lua_push,
      lua_setfield_neg2, push_dnsgpos_angle_mid, withFields, octets, Option.bind_eq_bind,
      Option.some_bind, Option.pure_def, List.foldl_cons, List.foldl_nil, List.append_nil,
      List.nil_append, List.length_nil, List.length_cons, List.cons_append, Nat.add_zero,
      List.singleton_append, Nat.add_assoc, Nat.reduceAdd]
  rw [if_neg h1, if_neg h1]
  by_cases h2 : a.generic.type = RR_NAPTR
  · rw [if_pos h2, if_pos h2]
    simp only [lua_pushinteger, lua_pushnumber, lua_pushstring, lua_pushlstring, lua_push,
      lua_setfield_neg2, push_dnsgpos_angle_mid, withFields, octets, Option.bind_eq_bind,
      Option.some_bind, Option.pure_def, List.foldl_cons, List.foldl_nil, List.append_nil,
      List.nil_append, List.length_nil, List.length_cons, List.cons_append, Nat.add_zero,
      List.singleton_append, Nat.add_assoc, Nat.reduceAdd]
  rw [if_neg h2, if_neg h2]
  by_cases h3 : a.generic.type = RR_AAAA
  · rw [if_pos h3, if_pos h3]
    simp only [lua_pushinteger, lua_pushnumber, lua_pushstring, lua_pushlstring, lua_push,
      lua_setfield_neg2, push_dnsgpos_angle_mid, withFields, octets, Option.bind_eq_bind,
      Option.some_bind, Option.pure_def, List.foldl_cons, List.foldl_nil, List.append_nil,
      List.nil_append, List.length_nil, List.length_cons, List.cons_append, Nat.add_zero,
      List.singleton_append, Nat.add_assoc, Nat.reduceAdd]
  rw [if_neg h3, if_neg h3]
  by_cases h4 : a.generic.type = RR_SRV
  · rw [if_pos h4, if_pos h4]
    simp only [lua_pushinteger, lua_pushnumber, lua_pushstring, lua_pushlstring, lua_push,
      lua_setfield_neg2, push_dnsgpos_angle_mid, withFields, octets, Option.bind_eq_bind,
      Option.some_bind, Option.pure_def, List.foldl_cons, List.foldl_nil, List.append_nil,
      List.nil_append, List.length_nil, List.length_cons, List.cons_append, Nat.add_zero,
      List.singleton_append, Nat.add_assoc, Nat.reduceAdd]
  rw [if_neg h4, if_neg h4]
  by_cases h5 : a.generic.type = RR_WKS
  · rw [if_pos h5, if_pos h5]
    simp only [lua_pushinteger, lua_pushnumber, lua_pushstring, lua_pushlstring, lua_push,
      lua_setfield_neg2, push_dnsgpos_angle_mid, withFields, octets, Option.bind_eq_bind,
      Option.some_bind, Option.pure_def, List.foldl_cons, List.foldl_nil, List.append_nil,
      List.nil_append, List.length_nil, List.length_cons, List.cons_append, Nat.add_zero,
      List.singleton_append, Nat.add_assoc, Nat.reduceAdd]
  rw [if_neg h5, if_neg h5]
  by_cases h6 : a.generic.type = RR_GPOS
  · rw [if_pos h6, if_pos h6]
    simp only [lua_pushinteger, lua_pushnumber, lua_pushstring, lua_pushlstring, lua_push,
      lua_setfield_neg2, push_dnsgpos_angle_mid, withFields, octets, Option.bind_eq_bind,
      Option.some_bind, Option.pure_def, List.foldl_cons, List.foldl_nil, List.append_nil,
      List.nil_append, List.length_nil, List.length_cons, List.cons_append, Nat.add_zero,
      List.singleton_append, Nat.add_assoc, Nat.reduceAdd]
  rw [if_neg h6, if_neg h6]
  by_cases h7 : a.generic.type = RR_LOC
  · rw [if_pos h7, if_pos h7]
    simp only [lua_pushinteger, lua_pushnumber, lua_pushstring, lua_pushlstring, lua_push,
      lua_setfield_neg2, push_dnsgpos_angle_mid, withFields, octets, Option.bind_eq_bind,
      Option.some_bind, Option.pure_def, List.foldl_cons, List.foldl_nil, List.append_nil,
      List.nil_append, List.length_nil, List.length_cons, List.cons_append, Nat.add_zero,
      List.singleton_append, Nat.add_assoc, Nat.reduceAdd]
  rw [if_neg h7, if_neg h7]
  by_cases h8 : a.generic.type = RR_NS
  · rw [if_pos h8, if_pos h8]
    simp only [lua_pushinteger, lua_pushnumber, lua_pushstring, lua_pushlstring, lua_push,
      lua_setfield_neg2, push_dnsgpos_angle_mid, withFields, octets, Option.bind_eq_bind,
      Option.some_bind, Option.pure_def, List.foldl_cons, List.foldl_nil, List.append_nil,
      List.nil_append, List.length_nil, List.length_cons, List.cons_append, Nat.add_zero,
      List.singleton_append, Nat.add_assoc, Nat.reduceAdd]
  rw [if_neg h8, if_neg h8]
  by_cases h9 : a.generic.type = RR_CNAME
  · rw [if_pos h9, if_pos h9]
    simp only [lua_pushinteger, lua_pushnumber, lua_pushstring, lua_pushlstring, lua_push,
      lua_setfield_neg2, push_dnsgpos_angle_mid, withFields, octets, Option.bind_eq_bind,
      Option.some_bind, Option.pure_def, List.foldl_cons, List.foldl_nil, List.append_nil,
      List.nil_append, List.length_nil, List.length_cons, List.cons_append, Nat.add_zero,
      List.singleton_append, Nat.add_assoc, Nat.reduceAdd]
  rw [if_neg h9, if_neg h9]
  by_cases h10 : a.generic.type = RR_MX
  · rw [if_pos h10, if_pos h10]
    simp only [lua_pushinteger, lua_pushnumber, lua_pushstring, lua_pushlstring, lua_push,
      lua_setfield_neg2, push_dnsgpos_angle_mid, withFields, octets, Option.bind_eq_bind,
      Option.some_bind, Option.pure_def, List.foldl_cons, List.foldl_nil, List.append_nil,
      List.nil_append, List.length_nil, List.length_cons, List.cons_append, Nat.add_zero,
      List.singleton_append, Nat.add_assoc, Nat.reduceAdd]
  rw [if_neg h10, if_neg h10]
  by_cases h11 : a.generic.type = RR_PTR
  · rw [if_pos h11, if_pos h11]
    simp only [lua_pushinteger, lua_pushnumber, lua_pushstring, lua_pushlstring, lua_push,
      lua_setfield_neg2, push_dnsgpos_angle_mid, withFields, octets, Option.bind_eq_bind,
      Option.some_bind, Option.pure_def, List.foldl_cons, List.foldl_nil, List.append_nil,
      List.nil_append, List.length_nil, List.length_cons, List.cons_append, Nat.add_zero,
      List.singleton_append, Nat.add_assoc, Nat.reduceAdd]
  rw [if_neg h11, if_neg h11]
  by_cases h12 : a.generic.type = RR_HINFO
  · rw [if_pos h12, if_pos h12]
    simp only [lua_pushinteger, lua_pushnumber, lua_pushstring, lua_pushlstring, lua_push,
      lua_setfield_neg2, push_dnsgpos_angle_mid, withFields, octets, Option.bind_eq_bind,
      Option.some_bind, Option.pure_def, List.foldl_cons, List.foldl_nil, List.append_nil,
      List.nil_append, List.length_nil, List.length_cons, List.cons_append, Nat.add_zero,
      List.singleton_append, Nat.add_assoc, Nat.reduceAdd]
  rw [if_neg h12, if_neg h12]
  by_cases h13 : a.generic.type = RR_SPF ∨ a.generic.type = RR_TXT
  · rw [if_pos h13, if_pos h13]
    simp only [lua_pushinteger, lua_pushnumber, lua_pushstring, lua_pushlstring, lua_push,
      lua_setfield_neg2, push_dnsgpos_angle_mid, withFields, octets, Option.bind_eq_bind,
      Option.some_bind, Option.pure_def, List.foldl_cons, List.foldl_nil, List.append_nil,
      List.nil_append, List.length_nil, List.length_cons, List.cons_append, Nat.add_zero,
      List.singleton_append, Nat.add_assoc, Nat.reduceAdd]
  rw [if_neg h13, if_neg h13]
  rfl

/-- The cases of `rdataSpec`, one per branch of the `switch`, each with the
type it belongs to. -/
theorem rdataSpec_cases (lib : DnsLib) (a : dns_answer_t) :
    ((a.generic.type = RR_A) ∧ ∀ b, rdataSpec lib a b =
      ([("address", .string (lib.inet_ntop4 a.a.address)), ("raw_address", octets a.a.address 4)],
       [])) ∨
    ((a.generic.type = RR_SOA) ∧ ∀ b, rdataSpec lib a b =
      ([("mname", .string a.soa.mname), ("rname", .string a.soa.rname),
      ("serial", .number a.soa.serial), ("refresh", .number a.soa.refresh),
      ("retry", .number a.soa.retry), ("expire", .number a.soa.expire),
      ("minimum", .number a.soa.minimum)],
       [])) ∨
    ((a.generic.type = RR_NAPTR) ∧ ∀ b, rdataSpec lib a b =
      ([("order", .number a.naptr.order), ("preference", .number a.naptr.preference),
      ("flags", .string a.naptr.flags), ("services", .string a.naptr.services),
      ("regexp", .string a.naptr.regexp), ("replacement", .string a.naptr.replacement)],
       [])) ∨
    ((a.generic.type = RR_AAAA) ∧ ∀ b, rdataSpec lib a b =
      ([("address", .string (lib.inet_ntop6 a.aaaa.address)),
      ("raw_address", octets a.aaaa.address 16)],
       [])) ∨
    ((a.generic.type = RR_SRV) ∧ ∀ b, rdataSpec lib a b =
      ([("priority", .number a.srv.priority), ("weight", .number a.srv.weight),
      ("port", .number a.srv.port), ("target", .string a.srv.target)],
       [])) ∨
    ((a.generic.type = RR_WKS) ∧ ∀ b, rdataSpec lib a b =
      ([("address", .string (lib.inet_ntop4 a.wks.address)),
      ("raw_address", octets a.wks.address 4), ("protocol", .number a.wks.protocol),
      ("bits", octets a.wks.bits a.wks.numbits)],
       [])) ∨
    ((a.generic.type = RR_GPOS) ∧ ∀ b, rdataSpec lib a b =
      ([("longitude", .table b), ("latitude", .table (b + 1)),
      ("altitude", .number a.gpos.altitude)],
       [withFields [] (angleFields lib a.gpos.latitude true),
      withFields [] (angleFields lib a.gpos.longitude false)])) ∨
    ((a.generic.type = RR_LOC) ∧ ∀ b, rdataSpec lib a b =
      ([("size", .number a.loc.size), ("horiz_pre", .number a.loc.horiz_pre),
      ("vert_pre", .number a.loc.vert_pre), ("latitude", .table b),
      ("longitude", .table (b + 1)), ("altitude", .number a.loc.altitude)],
       [withFields [] (angleFields lib a.loc.latitude true),
      withFields [] (angleFields lib a.loc.longitude false)])) ∨
    ((a.generic.type = RR_NS) ∧ ∀ b, rdataSpec lib a b =
      ([("nsdname", .string a.ns.nsdname)],
       [])) ∨
    ((a.generic.type = RR_CNAME) ∧ ∀ b, rdataSpec lib a b =
      ([("cname", .string a.cname.cname)],
       [])) ∨
    ((a.generic.type = RR_MX) ∧ ∀ b, rdataSpec lib a b =
      ([("exchange", .string a.mx.exchange), ("preference", .number a.mx.preference)],
       [])) ∨
    ((a.generic.type = RR_PTR) ∧ ∀ b, rdataSpec lib a b =
      ([("ptr", .string a.ptr.ptr)],
       [])) ∨
    ((a.generic.type = RR_HINFO) ∧ ∀ b, rdataSpec lib a b =
      ([("cpu", .string a.hinfo.cpu), ("os", .string a.hinfo.os)],
       [])) ∨
    ((a.generic.type = RR_SPF ∨ a.generic.type = RR_TXT) ∧ ∀ b, rdataSpec lib a b =
      ([("txt", octets a.txt.text a.txt.len)],
       [])) ∨
    ((a.generic.type ≠ RR_A ∧ a.generic.type ≠ RR_SOA ∧ a.generic.type ≠ RR_NAPTR ∧ a.generic.type ≠ RR_AAAA ∧ a.generic.type ≠ RR_SRV ∧ a.generic.type ≠ RR_WKS ∧ a.generic.type ≠ RR_GPOS ∧ a.generic.type ≠ RR_LOC ∧ a.generic.type ≠ RR_NS ∧ a.generic.type ≠ RR_CNAME ∧ a.generic.type ≠ RR_MX ∧ a.generic.type ≠ RR_PTR ∧ a.generic.type ≠ RR_HINFO ∧ a.generic.type ≠ RR_SPF ∧ a.generic.type ≠ RR_TXT) ∧
      ∀ b, rdataSpec lib a b = ([], [])) := by
  by_cases h0 : a.generic.type = RR_A
  · exact Or.inl ⟨h0, fun b => by unfold rdataSpec; rw [if_pos h0]⟩
  by_cases h1 : a.generic.type = RR_SOA
  · exact Or.inr (Or.inl ⟨h1, fun b => by unfold rdataSpec; rw [if_neg h0, if_pos h1]⟩)
  by_cases h2 : a.generic.type = RR_NAPTR
  · exact Or.inr (Or.inr (Or.inl ⟨h2, fun b => by unfold rdataSpec; rw [if_neg h0, if_neg h1, if_pos h2]⟩))
  by_cases h3 : a.generic.type = RR_AAAA
  · exact Or.inr (Or.inr (Or.inr (Or.inl ⟨h3, fun b => by unfold rdataSpec; rw [if_neg h0, if_neg h1, if_neg h2, if_pos h3]⟩)))
  by_cases h4 : a.generic.type = RR_SRV
  · exact Or.inr (Or.inr (Or.inr (Or.inr (Or.inl ⟨h4, fun b => by unfold rdataSpec; rw [if_neg h0, if_neg h1, if_neg h2, if_neg h3, if_pos h4]⟩))))
  by_cases h5 : a.generic.type = RR_WKS
  · exact Or.inr (Or.inr (Or.inr (Or.inr (Or.inr (Or.inl ⟨h5, fun b => by unfold rdataSpec; rw [if_neg h0, if_neg h1, if_neg h2, if_neg h3, if_neg h4, if_pos h5]⟩)))))
  by_cases h6 : a.generic.type = RR_GPOS
  · exact Or.inr (Or.inr (Or.inr (Or.inr (Or.inr (Or.inr (Or.inl ⟨h6, fun b => by unfold rdataSpec; rw [if_neg h0, if_neg h1, if_neg h2, if_neg h3, if_neg h4, if_neg h5, if_pos h6]⟩))))))
  by_cases h7 : a.generic.type = RR_LOC
  · exact Or.inr (Or.inr (Or.inr (Or.inr (Or.inr (Or.inr (Or.inr (Or.inl ⟨h7, fun b => by unfold rdataSpec; rw [if_neg h0, if_neg h1, if_neg h2, if_neg h3, if_neg h4, if_neg h5, if_neg h6, if_pos h7]⟩)))))))
  by_cases h8 : a.generic.type = RR_NS
  · exact Or.inr (Or.inr (Or.inr (Or.inr (Or.inr (Or.inr (Or.inr (Or.inr (Or.inl ⟨h8, fun b => by unfold rdataSpec; rw [if_neg h0, if_neg h1, if_neg h2, if_neg h3, if_neg h4, if_neg h5, if_neg h6, if_neg h7, if_pos h8]⟩))))))))
  by_cases h9 : a.generic.type = RR_CNAME
  · exact Or.inr (Or.inr (Or.inr (Or.inr (Or.inr (Or.inr (Or.inr (Or.inr (Or.inr (Or.inl ⟨h9, fun b => by unfold rdataSpec; rw [if_neg h0, if_neg h1, if_neg h2, if_neg h3, if_neg h4, if_neg h5, if_neg h6, if_neg h7, if_neg h8, if_pos h9]⟩)))))))))
  by_cases h10 : a.generic.type = RR_MX
  · exact Or.inr (Or.inr (Or.inr (Or.inr (Or.inr (Or.inr (Or.inr (Or.inr (Or.inr (Or.inr (Or.inl ⟨h10, fun b => by unfold rdataSpec; rw [if_neg h0, if_neg h1, if_neg h2, if_neg h3, if_neg h4, if_neg h5, if_neg h6, if_neg h7, if_neg h8, if_neg h9, if_pos h10]⟩))))))))))
  by_cases h11 : a.generic.type = RR_PTR
  · exact Or.inr (Or.inr (Or.inr (Or.inr (Or.inr (Or.inr (Or.inr (Or.inr (Or.inr (Or.inr (Or.inr (Or.inl ⟨h11, fun b => by unfold rdataSpec; rw [if_neg h0, if_neg h1, if_neg h2, if_neg h3, if_neg h4, if_neg h5, if_neg h6, if_neg h7, if_neg h8, if_neg h9, if_neg h10, if_pos h11]⟩)))))))))))
  by_cases h12 : a.generic.type = RR_HINFO
  · exact Or.inr (Or.inr (Or.inr (Or.inr (Or.inr (Or.inr (Or.inr (Or.inr (Or.inr (Or.inr (Or.inr (Or.inr (Or.inl ⟨h12, fun b => by unfold rdataSpec; rw [if_neg h0, if_neg h1, if_neg h2, if_neg h3, if_neg h4, if_neg h5, if_neg h6, if_neg h7, if_neg h8, if_neg h9, if_neg h10, if_neg h11, if_pos h12]⟩))))))))))))
  by_cases h13 : a.generic.type = RR_SPF ∨ a.generic.type = RR_TXT
  · exact Or.inr (Or.inr (Or.inr (Or.inr (Or.inr (Or.inr (Or.inr (Or.inr (Or.inr (Or.inr (Or.inr (Or.inr (Or.inr (Or.inl ⟨h13, fun b => by unfold rdataSpec; rw [if_neg h0, if_neg h1, if_neg h2, if_neg h3, if_neg h4, if_neg h5, if_neg h6, if_neg h7, if_neg h8, if_neg h9, if_neg h10, if_neg h11, if_neg h12, if_pos h13]⟩)))))))))))))
  exact Or.inr (Or.inr (Or.inr (Or.inr (Or.inr (Or.inr (Or.inr (Or.inr (Or.inr (Or.inr (Or.inr (Or.inr (Or.inr (Or.inr (⟨⟨h0, h1, h2, h3, h4, h5, h6, h7, h8, h9, h10, h11, h12, fun h => h13 (Or.inl h), fun h => h13 (Or.inr h)⟩, fun b => by unfold rdataSpec; rw [if_neg h0, if_neg h1, if_neg h2, if_neg h3, if_neg h4, if_neg h5, if_neg h6, if_neg h7, if_neg h8, if_neg h9, if_neg h10, if_neg h11, if_neg h12, if_neg h13]⟩))))))))))))))

theorem decode_answer_record_eq (lib : DnsLib) (S : List TValue) (H : List Table)
    (a : dns_answer_t) :
    decode_answer_record lib ⟨S, H⟩ a =
      some ⟨.table H.length :: S,
        H ++ withFields [] (commonFields lib a ++ (rdataSpec lib a (H.length + 1)).1) ::
          (rdataSpec lib a (H.length + 1)).2⟩ := by
  simp only [decode_answer_record, lua_createtable, decode_answer_common_eq,
    decode_answer_rdata_eq, withFields, Option.bind_eq_bind, Option.some_bind,
    List.foldl_append]

theorem luaH_get_withFields_of_not_mem (t : Table) (kvs : List (String × TValue)) (k : TValue)
    (h : ∀ kv ∈ kvs, TValue.string kv.1 ≠ k) :
    luaH_get (withFields t kvs) k = luaH_get t k := by
  induction kvs generalizing t with
  | nil => rfl
  | cons kv kvs ih =>
    have h1 : TValue.string kv.1 ≠ k := h kv (List.mem_cons_self _ _)
    have h2 : ∀ kv' ∈ kvs, TValue.string kv'.1 ≠ k := fun kv' hm => h kv' (List.mem_cons_of_mem _ hm)
    show luaH_get (withFields (luaH_set t (.string kv.1) kv.2) kvs) k = _
    rw [ih _ h2, luaH_get_set, if_neg h1]

theorem withFields_append (t : Table) (xs ys : List (String × TValue)) :
    withFields t (xs ++ ys) = withFields (withFields t xs) ys := by
  simp [withFields, List.foldl_append]

/-- No payload field is called `name`, `ttl`, `class` or `type`. -/
theorem rdataSpec_keys (lib : DnsLib) (a : dns_answer_t) (b : Nat) :
    ∀ kv ∈ (rdataSpec lib a b).1,
      kv.1 ≠ "name" ∧ kv.1 ≠ "ttl" ∧ kv.1 ≠ "class" ∧ kv.1 ≠ "type" := by
  rcases rdataSpec_cases lib a with h | h | h | h | h | h | h | h | h | h | h | h | h | h | h <;>
  rw [h.2] <;> simp

theorem luaH_get_record_common (lib : DnsLib) (a : dns_answer_t) (b : Nat) (k : String)
    (hk : k = "name" ∨ k = "ttl" ∨ k = "class" ∨ k = "type") :
    luaH_get (withFields [] (commonFields lib a ++ (rdataSpec lib a b).1)) (.string k) =
      luaH_get (withFields [] (commonFields lib a)) (.string k) := by
  rw [withFields_append]
  apply luaH_get_withFields_of_not_mem
  intro kv hkv heq
  have := rdataSpec_keys lib a b kv hkv
  simp only [TValue.string.injEq] at heq
  rcases hk with h | h | h | h <;> simp_all

theorem luaH_get_record_name (lib : DnsLib) (a : dns_answer_t) (b : Nat) :
    luaH_get (withFields [] (commonFields lib a ++ (rdataSpec lib a b).1)) (.string "name") =
      .string a.generic.name := by
  rw [luaH_get_record_common lib a b "name" (Or.inl rfl)]
  simp [withFields, commonFields, luaH_get_set]

theorem index2adr_neg3 (u v w : TValue) (S : List TValue) (H : List Table) :
    index2adr ⟨u :: v :: w :: S, H⟩ (-3) = some w := by
  simp [index2adr]

theorem index2adr_neg5 (u v w x y : TValue) (S : List TValue) (H : List Table) :
    index2adr ⟨u :: v :: w :: x :: y :: S, H⟩ (-5) = some y := by
  simp [index2adr]

theorem lua_settable_neg3 (v k : TValue) (S : List TValue) (X Y : List Table) (t : Table)
    (hk : k ≠ .nil) :
    lua_settable ⟨v :: k :: .table X.length :: S, X ++ t :: Y⟩ (-3) =
      some ⟨.table X.length :: S, X ++ luaH_set t k v :: Y⟩ := by
  simp only [lua_settable, index2adr_neg3, getElem?_mid, set_mid, Option.bind_eq_bind,
    Option.some_bind, Option.pure_def, hk, if_false]

theorem lua_settable_neg5 (v k u w : TValue) (S : List TValue) (X Y : List Table) (t : Table)
    (hk : k ≠ .nil) :
    lua_settable ⟨v :: k :: u :: w :: .table X.length :: S, X ++ t :: Y⟩ (-5) =
      some ⟨u :: w :: .table X.length :: S, X ++ luaH_set t k v :: Y⟩ := by
  simp only [lua_settable, index2adr_neg5, getElem?_mid, set_mid, Option.bind_eq_bind,
    Option.some_bind, Option.pure_def, hk, if_false]

theorem lua_getfield_neg1 (S : List TValue) (X Y : List Table) (t : Table) (k : String) :
    lua_getfield ⟨.table X.length :: S, X ++ t :: Y⟩ (-1) k =
      some ⟨luaH_get t (.string k) :: .table X.length :: S, X ++ t :: Y⟩ := by
  simp only [lua_getfield, index2adr_neg1, getElem?_mid, Option.bind_eq_bind, Option.some_bind,
    Option.pure_def, lua_push]

theorem lua_pushvalue_neg2 (v w : TValue) (S : List TValue) (H : List Table) :
    lua_pushvalue ⟨v :: w :: S, H⟩ (-2) = some ⟨w :: v :: w :: S, H⟩ := by
  simp only [lua_pushvalue, index2adr_neg2, Option.bind_eq_bind, Option.some_bind,
    Option.pure_def, lua_push]

theorem decode_answer_body_eq (lib : DnsLib) (pans : Nat → dns_answer_t) (dup : Bool) (k : Nat)
    (S : List TValue) (X G : List Table) (T : Table) :
    decode_answer_body lib pans dup k ⟨.table X.length :: S, X ++ T :: G⟩ =
      some ⟨.table X.length :: S,
        X ++ luaH_set
            (if dup then
              luaH_set T (.string (pans k).generic.name) (.table (X.length + 1 + G.length))
            else T)
            (.number ((k + 1 : Nat) : Int)) (.table (X.length + 1 + G.length)) ::
          (G ++ recordTables lib (pans k) (X.length + 1 + G.length))⟩ := by
  have hlen : (X ++ T :: G).length = X.length + 1 + G.length := by
    simp only [List.length_append, List.length_cons]; omega
  have hnum : TValue.number (((k + 1 : Nat) : Int) : ℚ) ≠ .nil := by simp
  have hstr : TValue.string (pans k).generic.name ≠ .nil := by simp
  cases dup
  · simp only [decode_answer_body, lua_pushinteger, lua_push, decode_answer_record_eq,
      Option.bind_eq_bind, Option.some_bind, Bool.false_eq_true, if_false,
      List.append_assoc, List.cons_append]
    rw [lua_settable_neg3 _ _ _ _ _ _ hnum, hlen]
    rfl
  · simp only [decode_answer_body, lua_pushinteger, lua_push, decode_answer_record_eq,
      Option.bind_eq_bind, Option.some_bind, if_true, lua_getfield_neg1,
      luaH_get_record_name, lua_pushvalue_neg2]
    simp only [List.append_assoc, List.cons_append]
    rw [lua_settable_neg5 _ _ _ _ _ _ _ _ hstr, Option.some_bind,
      lua_settable_neg3 _ _ _ _ _ _ hnum, hlen]
    rfl

theorem decode_answer_loop_eq (lib : DnsLib) (pans : Nat → dns_answer_t) (dup : Bool)
    (S : List TValue) (X : List Table) (cnt : Nat) :
    decode_answer_loop lib pans dup cnt ⟨.table X.length :: S, X ++ [[]]⟩ =
      some ⟨.table X.length :: S,
        X ++ sect lib pans dup (X.length + 1) cnt :: segs lib pans (X.length + 1) cnt⟩ := by
  induction cnt with
  | zero => rfl
  | succ k ih =>
    simp only [decode_answer_loop, ih, Option.some_bind, decode_answer_body_eq, sect, segs]

theorem index2adr_push_pos (v : TValue) (S : List TValue) (H H' : List Table) (tab : Int)
    (m : Nat) (hpos : 0 < tab) (h : index2adr ⟨S, H⟩ tab = some (.table m)) :
    index2adr ⟨v :: S, H'⟩ tab = some (.table m) := by
  simp only [index2adr, hpos, if_true] at h ⊢
  by_cases hle : tab.toNat ≤ S.length
  · have hle' : tab.toNat ≤ (v :: S).length := by simp; omega
    have hpos' : 0 < tab.toNat := by omega
    rw [if_pos hle] at h
    rw [if_pos hle']
    have : (v :: S).length - tab.toNat = (S.length - tab.toNat) + 1 := by simp; omega
    rw [this, List.getElem?_cons_succ]
    exact h
  · rw [if_neg hle] at h
    cases h

theorem decode_answer_eq (lib : DnsLib) (S : List TValue) (H : List Table) (tab : Int)
    (name : String) (pans : Nat → dns_answer_t) (cnt : Nat) (dup : Bool) (m : Nat)
    (hpos : 0 < tab) (htab : index2adr ⟨S, H⟩ tab = some (.table m)) (hm : m < H.length) :
    decode_answer lib ⟨S, H⟩ tab name pans cnt dup =
      some ⟨S, H.set m (luaH_set (H.getD m []) (.string name) (.table H.length)) ++
        sect lib pans dup (H.length + 1) cnt :: segs lib pans (H.length + 1) cnt⟩ := by
  simp only [decode_answer, lua_createtable, decode_answer_loop_eq, Option.bind_eq_bind,
    Option.some_bind, lua_setfield, index2adr_push_pos _ S H _ tab m hpos htab]
  have h1 : (H ++ sect lib pans dup (H.length + 1) cnt :: segs lib pans (H.length + 1) cnt)[m]? =
      some (H.getD m []) := by
    rw [List.getElem?_append_left hm, List.getD_eq_getElem?_getD, List.getElem?_eq_getElem hm]
    rfl
  simp only [h1, Option.some_bind, Option.pure_def]
  rw [List.set_append_left _ _ hm]

theorem snapshot_leaf (H H' : List Table) (n n' : Nat) (v : TValue) (h : isLeaf v = true) :
    snapshot H n v = snapshot H' n' v := by
  cases v <;> cases n <;> cases n' <;> simp_all [snapshot, isLeaf]

theorem mem_luaH_set (t : Table) (k v : TValue) (e : TValue × TValue)
    (h : e ∈ luaH_set t k v) : e ∈ t ∨ e = (k, v) := by
  unfold luaH_set at h
  split_ifs at h
  · exact Or.inl (List.mem_filter.mp h).1
  · rcases List.mem_cons.mp h with h | h
    · exact Or.inr h
    · exact Or.inl (List.mem_filter.mp h).1

theorem mem_withFields (kvs : List (String × TValue)) (t : Table) (e : TValue × TValue)
    (h : e ∈ withFields t kvs) : e ∈ t ∨ ∃ kv ∈ kvs, e = (.string kv.1, kv.2) := by
  induction kvs generalizing t with
  | nil => exact Or.inl h
  | cons kv kvs ih =>
    rcases ih (luaH_set t (.string kv.1) kv.2) h with h1 | ⟨kv', hm, he⟩
    · rcases mem_luaH_set _ _ _ _ h1 with h2 | h2
      · exact Or.inl h2
      · exact Or.inr ⟨kv, List.mem_cons_self _ _, h2⟩
    · exact Or.inr ⟨kv', List.mem_cons_of_mem _ hm, he⟩

theorem withFields_leaves (kvs : List (String × TValue))
    (h : ∀ kv ∈ kvs, isLeaf kv.2 = true) :
    ∀ e ∈ withFields [] kvs, isLeaf e.1 = true ∧ isLeaf e.2 = true := by
  intro e he
  rcases mem_withFields kvs [] e he with h1 | ⟨kv, hm, rfl⟩
  · cases h1
  · exact ⟨rfl, h kv hm⟩

theorem snapshot_table_leaves (H H' : List Table) (r r' : Nat) (n : Nat)
    (heq : H.getD r [] = H'.getD r' [])
    (h : ∀ e ∈ H.getD r [], isLeaf e.1 = true ∧ isLeaf e.2 = true) :
    snapshot H n (.table r) = snapshot H' n (.table r') := by
  cases n with
  | zero => rfl
  | succ n =>
    simp only [snapshot, ← heq, LuaData.table.injEq]
    apply List.map_congr_left
    intro e he
    rw [snapshot_leaf H H' n n e.1 (h e he).1, snapshot_leaf H H' n n e.2 (h e he).2]

theorem angleFields_leaves (lib : DnsLib) (pa : dnsgpos_angle) (lat : Bool) :
    ∀ kv ∈ angleFields lib pa lat, isLeaf kv.2 = true := by
  simp [angleFields, isLeaf]

theorem commonFields_leaves (lib : DnsLib) (a : dns_answer_t) :
    ∀ kv ∈ commonFields lib a, isLeaf kv.2 = true := by
  simp [commonFields, isLeaf]

theorem getD_mid {α : Type} (X Y : List α) (t d : α) : (X ++ t :: Y).getD X.length d = t := by
  rw [List.getD_eq_getElem?_getD, getElem?_mid]; rfl

theorem getD_mid1 {α : Type} (X Y : List α) (t u d : α) :
    (X ++ t :: u :: Y).getD (X.length + 1) d = u := by
  have h := getD_mid (X ++ [t]) Y u d
  rw [List.length_append, List.append_assoc] at h
  exact h

theorem getD_mid2 {α : Type} (X Y : List α) (t u w d : α) :
    (X ++ t :: u :: w :: Y).getD (X.length + 1 + 1) d = w := by
  have h := getD_mid (X ++ [t, u]) Y w d
  rw [List.length_append, List.append_assoc] at h
  exact h

theorem snapshot_angle1 (P Y : List Table) (m a1 a2 : Table) (n : Nat)
    (h : ∀ e ∈ a1, isLeaf e.1 = true ∧ isLeaf e.2 = true) :
    snapshot (P ++ m :: a1 :: a2 :: Y) n (.table (P.length + 1)) =
      snapshot [a1] n (.table 0) := by
  apply snapshot_table_leaves
  · rw [getD_mid1]; rfl
  · rw [getD_mid1]; exact h

theorem snapshot_angle1_lone (m a1 a2 : Table) (n : Nat)
    (h : ∀ e ∈ a1, isLeaf e.1 = true ∧ isLeaf e.2 = true) :
    snapshot [m, a1, a2] n (.table 1) = snapshot [a1] n (.table 0) :=
  snapshot_angle1 [] [] m a1 a2 n h

theorem snapshot_angle2 (P Y : List Table) (m a1 a2 : Table) (n : Nat)
    (h : ∀ e ∈ a2, isLeaf e.1 = true ∧ isLeaf e.2 = true) :
    snapshot (P ++ m :: a1 :: a2 :: Y) n (.table (P.length + 1 + 1)) =
      snapshot [a2] n (.table 0) := by
  apply snapshot_table_leaves
  · rw [getD_mid2]; rfl
  · rw [getD_mid2]; exact h

theorem snapshot_angle2_lone (m a1 a2 : Table) (n : Nat)
    (h : ∀ e ∈ a2, isLeaf e.1 = true ∧ isLeaf e.2 = true) :
    snapshot [m, a1, a2] n (.table 2) = snapshot [a2] n (.table 0) :=
  snapshot_angle2 [] [] m a1 a2 n h

/-- The record table and what hangs below it do not depend on where in the
heap the record was converted. -/
theorem snapshot_recordTables (lib : DnsLib) (a : dns_answer_t) (P Y : List Table) (n : Nat) :
    snapshot (P ++ (recordTables lib a P.length ++ Y)) n (.table P.length) =
      snapshot (recordTables lib a 0) n (.table 0) := by
  have hang : ∀ (pa : dnsgpos_angle) (lat : Bool),
      ∀ e ∈ withFields [] (angleFields lib pa lat), isLeaf e.1 = true ∧ isLeaf e.2 = true :=
    fun pa lat => withFields_leaves _ (angleFields_leaves lib pa lat)
  rcases rdataSpec_cases lib a with h | h | h | h | h | h | h | h | h | h | h | h | h | h | h
  case inr.inr.inr.inr.inr.inr.inl =>
    have hmain : ∀ b, withFields [] (commonFields lib a ++ (rdataSpec lib a b).1) =
        [(.string "altitude", .number a.gpos.altitude), (.string "latitude", .table (b + 1)),
         (.string "longitude", .table b),
         (.string "type", .string (lib.dns_type_text a.generic.type)),
         (.string "class", .string (lib.dns_class_text a.generic.class)),
         (.string "ttl", .number a.generic.ttl), (.string "name", .string a.generic.name)] := by
      intro b
      rw [h.2]
      simp [commonFields, withFields, luaH_set]
    cases n with
    | zero => rfl
    | succ n =>
      simp only [recordTables, hmain]
      simp only [h.2, List.cons_append, List.nil_append, snapshot, getD_mid,
        List.getD_cons_zero, List.map, Nat.zero_add, Nat.reduceAdd,
        snapshot_angle1 P Y _ _ _ n (hang a.gpos.latitude true),
        snapshot_angle2 P Y _ _ _ n (hang a.gpos.longitude false),
        snapshot_angle1_lone _ _ _ n (hang a.gpos.latitude true),
        snapshot_angle2_lone _ _ _ n (hang a.gpos.longitude false)]
  case inr.inr.inr.inr.inr.inr.inr.inl =>
    have hmain : ∀ b, withFields [] (commonFields lib a ++ (rdataSpec lib a b).1) =
        [(.string "altitude", .number a.loc.altitude), (.string "longitude", .table (b + 1)),
         (.string "latitude", .table b), (.string "vert_pre", .number a.loc.vert_pre),
         (.string "horiz_pre", .number a.loc.horiz_pre), (.string "size", .number a.loc.size),
         (.string "type", .string (lib.dns_type_text a.generic.type)),
         (.string "class", .string (lib.dns_class_text a.generic.class)),
         (.string "ttl", .number a.generic.ttl), (.string "name", .string a.generic.name)] := by
      intro b
      rw [h.2]
      simp [commonFields, withFields, luaH_set]
    cases n with
    | zero => rfl
    | succ n =>
      simp only [recordTables, hmain]
      simp only [h.2, List.cons_append, List.nil_append, snapshot, getD_mid,
        List.getD_cons_zero, List.map, Nat.zero_add, Nat.reduceAdd,
        snapshot_angle1 P Y _ _ _ n (hang a.loc.latitude true),
        snapshot_angle2 P Y _ _ _ n (hang a.loc.longitude false),
        snapshot_angle1_lone _ _ _ n (hang a.loc.latitude true),
        snapshot_angle2_lone _ _ _ n (hang a.loc.longitude false)]
  all_goals
    simp only [recordTables, h.2, List.cons_append, List.nil_append]
    apply snapshot_table_leaves
    · rw [getD_mid]; rfl
    · rw [getD_mid]
      apply withFields_leaves
      intro kv hkv
      rcases List.mem_append.mp hkv with h1 | h1
      · exact commonFields_leaves lib a kv h1
      · clear hkv
        revert kv
        simp [isLeaf, octets]

theorem segs_split (lib : DnsLib) (pans : Nat → dns_answer_t) (b cnt i : Nat) (hi : i < cnt) :
    ∃ Y, segs lib pans b cnt =
      segs lib pans b i ++ (recordTables lib (pans i) (b + (segs lib pans b i).length) ++ Y) := by
  induction cnt with
  | zero => omega
  | succ k ih =>
    by_cases hik : i = k
    · subst hik
      exact ⟨[], by simp [segs]⟩
    · obtain ⟨Y, hY⟩ := ih (by omega)
      refine ⟨Y ++ recordTables lib (pans k) (b + (segs lib pans b k).length), ?_⟩
      rw [segs]
      conv_lhs => arg 1; rw [hY]
      simp only [List.append_assoc]

theorem number_cast_inj (i j : Nat) :
    TValue.number (((i + 1 : Nat) : Int) : ℚ) = TValue.number (((j + 1 : Nat) : Int) : ℚ) ↔
      i = j := by
  simp

theorem sect_get_number (lib : DnsLib) (pans : Nat → dns_answer_t) (dup : Bool) (b cnt i : Nat)
    (hi : i < cnt) :
    luaH_get (sect lib pans dup b cnt) (.number (((i + 1 : Nat) : Int) : ℚ)) =
      .table (b + (segs lib pans b i).length) := by
  induction cnt with
  | zero => omega
  | succ k ih =>
    rw [sect, luaH_get_set]
    by_cases hik : i = k
    · subst hik; simp
    · have hne : ¬ TValue.number (((k + 1 : Nat) : Int) : ℚ) =
          TValue.number (((i + 1 : Nat) : Int) : ℚ) := by
        rw [number_cast_inj]; omega
      rw [if_neg hne]
      cases dup
      · simpa using ih (by omega)
      · simp only [if_true, luaH_get_set]
        rw [if_neg (by simp)]
        exact ih (by omega)

/-- The section table has no key but the positions and, in `dup` mode, the
owner names. -/
theorem sect_get_other (lib : DnsLib) (pans : Nat → dns_answer_t) (dup : Bool) (b cnt : Nat)
    (key : TValue)
    (hnum : ∀ i, i < cnt → key ≠ .number (((i + 1 : Nat) : Int) : ℚ))
    (hname : dup = true → ∀ i, i < cnt → key ≠ .string (pans i).generic.name) :
    luaH_get (sect lib pans dup b cnt) key = .nil := by
  induction cnt with
  | zero => rfl
  | succ k ih =>
    have ih' := ih (fun i hi => hnum i (by omega)) (fun hd i hi => hname hd i (by omega))
    rw [sect, luaH_get_set, if_neg (fun h => hnum k (by omega) h.symm)]
    cases dup
    · simpa using ih'
    · simp only [if_true, luaH_get_set]
      rw [if_neg (fun h => hname rfl k (by omega) h.symm)]
      exact ih'

/-- In `dup` mode the entry under an owner name is the record table of the
last record with that name. -/
theorem sect_get_name (lib : DnsLib) (pans : Nat → dns_answer_t) (b cnt i : Nat) (hi : i < cnt)
    (hlast : ∀ j, i < j → j < cnt → (pans j).generic.name ≠ (pans i).generic.name) :
    luaH_get (sect lib pans true b cnt) (.string (pans i).generic.name) =
      .table (b + (segs lib pans b i).length) := by
  induction cnt with
  | zero => omega
  | succ k ih =>
    rw [sect, luaH_get_set, if_neg (by simp)]
    simp only [if_true, luaH_get_set]
    by_cases hik : i = k
    · subst hik; simp
    · have hne : ¬ TValue.string (pans k).generic.name = TValue.string (pans i).generic.name := by
        simp only [TValue.string.injEq]
        exact hlast k (by omega) (by omega)
      rw [if_neg hne]
      exact ih (by omega) (fun j h1 h2 => hlast j h1 (by omega))

/-- Where the tables of a section lie in a heap that holds them. -/
theorem section_record (lib : DnsLib) (pans : Nat → dns_answer_t) (X Z : List Table) (T : Table)
    (cnt i : Nat) (hi : i < cnt) :
    ∃ P Y, X ++ T :: (segs lib pans (X.length + 1) cnt ++ Z) =
        P ++ (recordTables lib (pans i) P.length ++ Y) ∧
      P.length = X.length + 1 + (segs lib pans (X.length + 1) i).length := by
  obtain ⟨Y, hY⟩ := segs_split lib pans (X.length + 1) cnt i hi
  refine ⟨X ++ T :: segs lib pans (X.length + 1) i, Y ++ Z, ?_, ?_⟩
  · have hl : (X ++ T :: segs lib pans (X.length + 1) i).length =
        X.length + 1 + (segs lib pans (X.length + 1) i).length := by
      simp only [List.length_append, List.length_cons]; omega
    rw [hY, hl]
    simp only [List.append_assoc, List.cons_append]
  · simp only [List.length_append, List.length_cons]; omega

theorem section_snapshot (lib : DnsLib) (pans : Nat → dns_answer_t) (X Z : List Table)
    (T : Table) (cnt i : Nat) (hi : i < cnt) (n : Nat) :
    snapshot (X ++ T :: (segs lib pans (X.length + 1) cnt ++ Z)) n
        (.table (X.length + 1 + (segs lib pans (X.length + 1) i).length)) =
      snapshot (recordTables lib (pans i) 0) n (.table 0) := by
  obtain ⟨P, Y, hP, hl⟩ := section_record lib pans X Z T cnt i hi
  rw [hP, ← hl]
  exact snapshot_recordTables lib (pans i) P Y n

theorem section_main (lib : DnsLib) (pans : Nat → dns_answer_t) (X Z : List Table)
    (T : Table) (cnt i : Nat) (hi : i < cnt) :
    (X ++ T :: (segs lib pans (X.length + 1) cnt ++ Z)).getD
        (X.length + 1 + (segs lib pans (X.length + 1) i).length) [] =
      withFields [] (commonFields lib (pans i) ++
        (rdataSpec lib (pans i)
          (X.length + 1 + (segs lib pans (X.length + 1) i).length + 1)).1) := by
  obtain ⟨P, Y, hP, hl⟩ := section_record lib pans X Z T cnt i hi
  rw [hP, ← hl, recordTables, List.cons_append, getD_mid]

theorem index2adr_abs_top (w : TValue) (S : List TValue) (H : List Table) :
    index2adr ⟨w :: S, H⟩ ((S.length + 1 : Nat) : Int) = some w := by
  have h0 : (0 : Int) < ((S.length + 1 : Nat) : Int) := by omega
  simp only [index2adr, h0, if_true, Int.toNat_ofNat, List.length_cons, le_refl, Nat.sub_self,
    List.getElem?_cons_zero]

theorem index2adr_abs_below (v w : TValue) (S : List TValue) (H : List Table) :
    index2adr ⟨v :: w :: S, H⟩ ((S.length + 1 : Nat) : Int) = some w := by
  have h0 : (0 : Int) < ((S.length + 1 : Nat) : Int) := by omega
  have h1 : S.length + 1 ≤ S.length + 1 + 1 := by omega
  have h2 : S.length + 1 + 1 - (S.length + 1) = 1 := by omega
  simp only [index2adr, h0, if_true, Int.toNat_ofNat, List.length_cons, h1, h2,
    List.getElem?_cons_succ, List.getElem?_cons_zero]

theorem lua_setfield_abs (v : TValue) (S : List TValue) (X Y : List Table) (t : Table)
    (k : String) :
    lua_setfield ⟨v :: .table X.length :: S, X ++ t :: Y⟩ ((S.length + 1 : Nat) : Int) k =
      some ⟨.table X.length :: S, X ++ luaH_set t (.string k) v :: Y⟩ := by
  simp only [lua_setfield, index2adr_abs_below, getElem?_mid, set_mid, Option.bind_eq_bind,
    Option.some_bind, Option.pure_def]

theorem decode_answer_mid (lib : DnsLib) (S : List TValue) (X Y : List Table) (t : Table)
    (name : String) (pans : Nat → dns_answer_t) (cnt : Nat) (dup : Bool) :
    decode_answer lib ⟨.table X.length :: S, X ++ t :: Y⟩ ((S.length + 1 : Nat) : Int) name
        pans cnt dup =
      some ⟨.table X.length :: S,
        X ++ luaH_set t (.string name) (.table (X.length + 1 + Y.length)) ::
          (Y ++ sect lib pans dup (X.length + 1 + Y.length + 1) cnt ::
            segs lib pans (X.length + 1 + Y.length + 1) cnt)⟩ := by
  have hlen : (X ++ t :: Y).length = X.length + 1 + Y.length := by
    simp only [List.length_append, List.length_cons]; omega
  have hm : X.length < (X ++ t :: Y).length := by omega
  rw [decode_answer_eq lib _ _ _ name pans cnt dup X.length (by omega)
    (index2adr_abs_top _ S _) hm, getD_mid, set_mid, hlen]
  simp only [List.append_assoc, List.cons_append]

theorem except_ok_bind {ε α β : Type} (a : α) (f : α → Except ε β) :
    (Except.ok a >>= f) = f a := rfl

theorem dnslua_decode_header_eq (S : List TValue) (X Y : List Table) (t : Table)
    (q : dns_query_t) :
    dnslua_decode_header ⟨.table X.length :: S, X ++ t :: Y⟩ ((S.length + 1 : Nat) : Int) q =
      .ok ⟨.table X.length :: S, X ++ withFields t (headerFields q) :: Y⟩ := by
  simp only [dnslua_decode_header, lua_pushboolean, lua_pushinteger, lua_push, lua_setfield_abs,
    api, except_ok_bind, withFields, headerFields, List.foldl_cons, List.foldl_nil]

theorem dnslua_decode_question_eq (lib : DnsLib) (S : List TValue) (X : List Table) (t : Table)
    (q : dns_query_t) (hq : q.qdcount ≠ 0) :
    dnslua_decode_question lib ⟨.table X.length :: S, X ++ [t]⟩ ((S.length + 1 : Nat) : Int) q =
      .ok ⟨.table X.length :: S,
        X ++ luaH_set t (.string "question") (.table (X.length + 1)) ::
          [withFields [] (questionFields lib q)]⟩ := by
  have hl : (X ++ [t]).length = X.length + 1 := by simp
  simp only [dnslua_decode_question, hq, ne_eq, not_false_eq_true, if_true, lua_createtable,
    lua_pushstring, lua_push, lua_setfield_neg2, api, except_ok_bind]
  simp only [List.append_assoc, List.singleton_append, lua_setfield_abs, api, hl,
    withFields, questionFields, List.foldl_cons, List.foldl_nil]

theorem dnslua_decode_body_ok (lib : DnsLib) (S : List TValue) (H : List Table) (bs : String)
    (hrc : (dns_decode_call lib bs).1 = RCODE_OKAY) :
    dnslua_decode_body lib ⟨S, H⟩ bs =
      .ok ([.table H.length], ⟨.table H.length :: S,
        H ++ (decodedTables lib (dns_decode_call lib bs).2 H.length).msg ::
          (decodedTables lib (dns_decode_call lib bs).2 H.length).rest⟩) := by
  have htab : lua_gettop ⟨.table H.length :: S, H ++ [[]]⟩ = ((S.length + 1 : Nat) : Int) := rfl
  generalize hq : (dns_decode_call lib bs).2 = q
  simp only [dnslua_decode_body, except_ok_bind, hrc, hq, lua_createtable,
    ne_eq, not_true, if_false, htab, dnslua_decode_header_eq]
  by_cases hq : q.qdcount = 0
  · simp only [dnslua_decode_question, hq, ne_eq, not_true, if_false, except_ok_bind,
      decode_answer_mid, api, pure, Except.pure, lua_gettop, List.length_cons, lua_return,
      List.take_succ_cons, List.take_zero, List.reverse_cons, List.reverse_nil, List.nil_append,
      decodedTables, withFields, List.foldl_cons, List.foldl_nil,
      List.length_nil, Nat.add_zero]
  · simp only [dnslua_decode_question_eq lib S H _ q hq, except_ok_bind, decode_answer_mid,
      api, pure, Except.pure, lua_gettop, List.length_cons, lua_return, not_true, if_false,
      List.take_succ_cons, List.take_zero, List.reverse_cons, List.reverse_nil, List.nil_append]
    simp only [decodedTables, hq, ne_eq, not_false_eq_true, if_true, withFields,
      List.foldl_append, List.foldl_cons, List.foldl_nil, List.length_singleton,
      List.singleton_append, List.cons_append, List.append_assoc, List.length_cons,
      List.length_nil, List.nil_append, Nat.zero_add]

theorem dnslua_decode_body_fail (lib : DnsLib) (S : List TValue) (H : List Table) (bs : String)
    (hrc : (dns_decode_call lib bs).1 ≠ RCODE_OKAY) :
    dnslua_decode_body lib ⟨S, H⟩ bs =
      .ok ([.nil, .string (lib.dns_rcode_text (dns_decode_call lib bs).1)],
        ⟨.string (lib.dns_rcode_text (dns_decode_call lib bs).1) :: .nil :: S, H⟩) := by
  simp only [dnslua_decode_body, hrc, ne_eq, not_false_eq_true, if_true, lua_pushnil,
    lua_pushstring, lua_push, lua_return, List.take_succ_cons, List.take_zero,
    List.reverse_cons, List.reverse_nil, List.nil_append, List.singleton_append]

theorem dnslua_decode_string (lib : DnsLib) (H : List Table) (bs : String) :
    dnslua_decode lib ⟨[.string bs], H⟩ = dnslua_decode_body lib ⟨[.string bs], H⟩ bs := by
  have h : index2adr ⟨[.string bs], H⟩ 1 = some (.string bs) := rfl
  simp only [dnslua_decode, luaL_checklstring, h, except_ok_bind]

theorem luaL_checklstring_neg3 (lib : DnsLib) (a b v : TValue) (S : List TValue)
    (H : List Table) :
    luaL_checklstring lib ⟨a :: b :: v :: S, H⟩ (-3) =
      (strArg lib (-3) v).map (fun s => (s, ⟨a :: b :: strSlot lib v :: S, H⟩)) := by
  cases v <;> simp [luaL_checklstring, index2adr_neg3, strArg, strSlot, lua_setslot, Except.map]

theorem luaL_optstring_neg2 (lib : DnsLib) (a v : TValue) (S : List TValue)
    (H : List Table) (d : String) :
    luaL_optstring lib ⟨a :: v :: S, H⟩ (-2) d =
      (optStrArg lib (-2) v d).map (fun s => (s, ⟨a :: strSlot lib v :: S, H⟩)) := by
  cases v <;>
  simp [luaL_optstring, lua_isnoneornil, luaL_checklstring, index2adr_neg2, optStrArg, strArg,
    strSlot, lua_setslot, Except.map]

theorem luaL_optstring_neg1 (lib : DnsLib) (v : TValue) (S : List TValue)
    (H : List Table) (d : String) :
    luaL_optstring lib ⟨v :: S, H⟩ (-1) d =
      (optStrArg lib (-1) v d).map (fun s => (s, ⟨strSlot lib v :: S, H⟩)) := by
  cases v <;>
  simp [luaL_optstring, lua_isnoneornil, luaL_checklstring, index2adr_neg1, optStrArg, strArg,
    strSlot, lua_setslot, Except.map]

theorem index2adr_neg4 (u v w x : TValue) (S : List TValue) (H : List Table) :
    index2adr ⟨u :: v :: w :: x :: S, H⟩ (-4) = some x := by
  simp [index2adr]

theorem luaL_optint_neg4 (lib : DnsLib) (a b c v : TValue) (S : List TValue)
    (H : List Table) (d : Int) :
    luaL_optint lib ⟨a :: b :: c :: v :: S, H⟩ (-4) d = optIntArg lib (-4) v d := by
  cases v with
  | string s =>
    simp only [luaL_optint, lua_isnoneornil, luaL_checkint, index2adr_neg4, optIntArg]
    cases lib.lua_str2number s <;> rfl
  | _ => simp [luaL_optint, lua_isnoneornil, luaL_checkint, index2adr_neg4, optIntArg]

theorem lua_toboolean_neg3 (a b v : TValue) (S : List TValue) (H : List Table) :
    lua_toboolean ⟨a :: b :: v :: S, H⟩ (-3) = truthy v := by
  cases v <;> simp [lua_toboolean, index2adr_neg3, truthy]

theorem lua_toboolean_neg2 (a v : TValue) (S : List TValue) (H : List Table) :
    lua_toboolean ⟨a :: v :: S, H⟩ (-2) = truthy v := by
  cases v <;> simp [lua_toboolean, index2adr_neg2, truthy]

theorem except_map_bind {ε α β γ : Type} (e : Except ε α) (f : α → β) (g : β → Except ε γ) :
    (e.map f >>= g) = (e >>= fun a => g (f a)) := by
  cases e <;> rfl

theorem except_error_bind {ε α β : Type} (e : ε) (f : α → Except ε β) :
    ((Except.error e : Except ε α) >>= f) = Except.error e := rfl

theorem except_bind_map {ε α β γ : Type} (e : Except ε α) (g : α → Except ε β) (f : β → γ) :
    Except.map f (e >>= g) = (e >>= fun a => Except.map f (g a)) := by
  cases e <;> rfl

theorem except_map_pure {ε α β : Type} (a : α) (f : α → β) :
    Except.map f (pure a : Except ε α) = pure (f a) := rfl

theorem lua_getfield_abs (S : List TValue) (H : List Table) (idx : Int) (r : Nat) (k : String)
    (hidx : index2adr ⟨S, H⟩ idx = some (.table r)) (hr : r < H.length) :
    lua_getfield ⟨S, H⟩ idx k = some ⟨fld H r k :: S, H⟩ := by
  have hget : H[r]? = some (H.getD r []) := by
    rw [List.getD_eq_getElem?_getD, List.getElem?_eq_getElem hr]; rfl
  simp only [lua_getfield, hidx, hget, Option.bind_eq_bind, Option.some_bind, Option.pure_def,
    lua_push, fld]

theorem dnslua_encode_query_eq (lib : DnsLib) (H : List Table) (m : Nat) (hm : m < H.length) :
    dnslua_encode_query lib ⟨[.table m], H⟩ =
      (encodeQuerySpec lib H m).map (fun q => (q, ⟨encodeStack lib H m, H⟩)) := by
  have h1 : lua_getfield ⟨[.table m], H⟩ 1 "question" =
      some ⟨[fld H m "question", .table m], H⟩ := lua_getfield_abs _ _ _ _ _ rfl hm
  have ht : lua_istable ⟨[.table m], H⟩ 1 = true := rfl
  have htop : lua_gettop ⟨[fld H m "question", .table m], H⟩ = 2 := rfl
  simp only [dnslua_encode_query, ht, h1, api, except_ok_bind, htop, Bool.not_true,
    Bool.false_eq_true, if_false]
  cases hq : fld H m "question" with
  | table qr =>
    by_cases hqr : qr < H.length
    · have g1 := lua_getfield_abs [.table qr, .table m] H 2 qr "name" rfl hqr
      have g2 := lua_getfield_abs [fld H qr "name", .table qr, .table m] H 2 qr "type" rfl hqr
      have g3 := lua_getfield_abs [fld H qr "type", fld H qr "name", .table qr, .table m] H 2 qr
        "class" rfl hqr
      have g4 := fun (a b c : TValue) =>
        lua_getfield_abs [a, b, c, .table qr, .table m] H 1 m "id" rfl hm
      have g5 := fun (a b c d : TValue) =>
        lua_getfield_abs [d, a, b, c, .table qr, .table m] H 1 m "query" rfl hm
      have g6 := fun (a b c d e : TValue) =>
        lua_getfield_abs [e, d, a, b, c, .table qr, .table m] H 1 m "rd" rfl hm
      have g7 := fun (a b c d e f : TValue) =>
        lua_getfield_abs [f, e, d, a, b, c, .table qr, .table m] H 1 m "opcode" rfl hm
      have ht2 : lua_istable ⟨[.table qr, .table m], H⟩ 2 = true := rfl
      simp only [ht2, g1, g2, g3, g4, g5, g6, g7, api, except_ok_bind, luaL_checklstring_neg3,
        luaL_optstring_neg2, luaL_optstring_neg1, luaL_optint_neg4, lua_toboolean_neg3,
        lua_toboolean_neg2, except_map_bind, encodeQuerySpec, encodeStack, hq, hqr, if_true,
        Bool.not_true, Bool.false_eq_true, if_false, except_bind_map, except_map_pure]
    · have hnone : H[qr]? = none := List.getElem?_eq_none (by omega)
      have g1 : lua_getfield ⟨[.table qr, .table m], H⟩ 2 "name" = none := by
        have hi : index2adr ⟨[.table qr, .table m], H⟩ 2 = some (.table qr) := rfl
        simp only [lua_getfield, hi, hnone, Option.bind_eq_bind, Option.some_bind,
          Option.none_bind]
      have ht2 : lua_istable ⟨[.table qr, .table m], H⟩ 2 = true := rfl
      simp only [ht2, g1, api, except_error_bind, encodeQuerySpec, hq, hqr, if_false,
        Bool.not_true, Bool.false_eq_true]
      rfl
  | nil =>
    have ht2 : lua_istable ⟨[.nil, .table m], H⟩ 2 = false := rfl
    simp only [ht2, encodeQuerySpec, hq, Bool.not_false, if_true]; rfl
  | boolean b =>
    have ht2 : lua_istable ⟨[.boolean b, .table m], H⟩ 2 = false := rfl
    simp only [ht2, encodeQuerySpec, hq, Bool.not_false, if_true]; rfl
  | number n =>
    have ht2 : lua_istable ⟨[.number n, .table m], H⟩ 2 = false := rfl
    simp only [ht2, encodeQuerySpec, hq, Bool.not_false, if_true]; rfl
  | string s =>
    have ht2 : lua_istable ⟨[.string s, .table m], H⟩ 2 = false := rfl
    simp only [ht2, encodeQuerySpec, hq, Bool.not_false, if_true]; rfl

theorem holdsSection_intro (lib : DnsLib) (X Z : List Table) (t b : Nat)
    (pans : Nat → dns_answer_t) (cnt : Nat) (dup : Bool) (ht : X.length = t) (hb : b = t + 1) :
    HoldsSection lib (X ++ sect lib pans dup b cnt :: (segs lib pans b cnt ++ Z)) t pans cnt dup := by
  subst hb; subst ht
  exact ⟨X, Z, rfl, rfl⟩

theorem holdsSection_get (lib : DnsLib) (Hf : List Table) (t : Nat) (pans : Nat → dns_answer_t)
    (cnt : Nat) (dup : Bool) (h : HoldsSection lib Hf t pans cnt dup) (k : TValue) :
    lua_index Hf (.table t) k = luaH_get (sect lib pans dup (t + 1) cnt) k := by
  obtain ⟨X, Z, rfl, rfl⟩ := h
  simp only [lua_index, getD_mid]

/-- The reference of the record table of record `i` of a section at `t`. -/
theorem holdsSection_entry (lib : DnsLib) (Hf : List Table) (t : Nat) (pans : Nat → dns_answer_t)
    (cnt : Nat) (dup : Bool) (h : HoldsSection lib Hf t pans cnt dup) (i : Nat) (hi : i < cnt) :
    lua_index Hf (.table t) (.number ((i + 1 : Nat) : ℚ)) =
      .table (t + 1 + (segs lib pans (t + 1) i).length) := by
  rw [holdsSection_get lib Hf t pans cnt dup h]
  have := sect_get_number lib pans dup (t + 1) cnt i hi
  rw [Int.cast_natCast] at this
  exact this

theorem holdsSection_number (lib : DnsLib) (Hf : List Table) (t : Nat)
    (pans : Nat → dns_answer_t) (cnt : Nat) (dup : Bool)
    (h : HoldsSection lib Hf t pans cnt dup) (x : ℚ) :
    lua_index Hf (.table t) (.number x) ≠ .nil ↔ ∃ i, i < cnt ∧ x = ((i + 1 : Nat) : ℚ) := by
  constructor
  · intro hne
    by_contra hno
    apply hne
    rw [holdsSection_get lib Hf t pans cnt dup h]
    apply sect_get_other
    · intro i hi heq
      apply hno
      refine ⟨i, hi, ?_⟩
      rw [Int.cast_natCast] at heq
      exact TValue.number.inj heq
    · intro _ i _ heq
      cases heq
  · rintro ⟨i, hi, rfl⟩
    rw [holdsSection_entry lib Hf t pans cnt dup h i hi]
    simp

theorem holdsSection_string_nodup (lib : DnsLib) (Hf : List Table) (t : Nat)
    (pans : Nat → dns_answer_t) (cnt : Nat)
    (h : HoldsSection lib Hf t pans cnt false) (s : String) :
    lua_index Hf (.table t) (.string s) = .nil := by
  rw [holdsSection_get lib Hf t pans cnt false h]
  apply sect_get_other
  · intro i _ heq; cases heq
  · intro hd; cases hd

theorem holdsSection_name (lib : DnsLib) (Hf : List Table) (t : Nat)
    (pans : Nat → dns_answer_t) (cnt : Nat)
    (h : HoldsSection lib Hf t pans cnt true) (i : Nat) (hi : i < cnt)
    (hlast : ∀ j, i < j → j < cnt → (pans j).generic.name ≠ (pans i).generic.name) :
    lua_index Hf (.table t) (.string (pans i).generic.name) =
      lua_index Hf (.table t) (.number ((i + 1 : Nat) : ℚ)) := by
  rw [holdsSection_entry lib Hf t pans cnt true h i hi, holdsSection_get lib Hf t pans cnt true h]
  exact sect_get_name lib pans (t + 1) cnt i hi hlast

theorem holdsSection_name_absent (lib : DnsLib) (Hf : List Table) (t : Nat)
    (pans : Nat → dns_answer_t) (cnt : Nat)
    (h : HoldsSection lib Hf t pans cnt true) (s : String)
    (hno : ∀ i, i < cnt → (pans i).generic.name ≠ s) :
    lua_index Hf (.table t) (.string s) = .nil := by
  rw [holdsSection_get lib Hf t pans cnt true h]
  apply sect_get_other
  · intro i _ heq; cases heq
  · intro _ i hi heq
    exact hno i hi (TValue.string.inj heq).symm

theorem holdsSection_snapshot (lib : DnsLib) (Hf : List Table) (t : Nat)
    (pans : Nat → dns_answer_t) (cnt : Nat) (dup : Bool)
    (h : HoldsSection lib Hf t pans cnt dup) (i : Nat) (hi : i < cnt) (n : Nat) :
    snapshot Hf n (lua_index Hf (.table t) (.number ((i + 1 : Nat) : ℚ))) =
      snapshot (recordTables lib (pans i) 0) n (.table 0) := by
  rw [holdsSection_entry lib Hf t pans cnt dup h i hi]
  obtain ⟨X, Z, rfl, rfl⟩ := h
  exact section_snapshot lib pans X Z _ cnt i hi n

theorem holdsSection_field (lib : DnsLib) (Hf : List Table) (t : Nat)
    (pans : Nat → dns_answer_t) (cnt : Nat) (dup : Bool)
    (h : HoldsSection lib Hf t pans cnt dup) (i : Nat) (hi : i < cnt) (k : TValue) :
    lua_index Hf (lua_index Hf (.table t) (.number ((i + 1 : Nat) : ℚ))) k =
      luaH_get (withFields [] (commonFields lib (pans i) ++
        (rdataSpec lib (pans i) (t + 1 + (segs lib pans (t + 1) i).length + 1)).1)) k := by
  rw [holdsSection_entry lib Hf t pans cnt dup h i hi]
  obtain ⟨X, Z, rfl, rfl⟩ := h
  simp only [lua_index, section_main lib pans X Z _ cnt i hi]

theorem decode_answer_record_lone (lib : DnsLib) (a : dns_answer_t) :
    decode_answer_record lib ⟨[], []⟩ a = some ⟨[.table 0], recordTables lib a 0⟩ := by
  rw [decode_answer_record_eq]
  rfl

theorem luaH_get_withFields_cons (t : Table) (k : String) (v : TValue)
    (kvs : List (String × TValue)) (key : TValue) :
    luaH_get (withFields t ((k, v) :: kvs)) key =
      luaH_get (withFields (luaH_set t (.string k) v) kvs) key := rfl

theorem holdsSection_layout (lib : DnsLib) (H Q Z1 Z2 : List Table) (msg : Table)
    (pans : Nat → dns_answer_t) (cnt : Nat) (dup : Bool) :
    HoldsSection lib
      (H ++ msg :: (Q ++ sect lib pans dup (H.length + 1 + Q.length + 1) cnt ::
        segs lib pans (H.length + 1 + Q.length + 1) cnt ++ Z1 ++ Z2))
      (H.length + 1 + Q.length) pans cnt dup := by
  have hl : (H ++ msg :: Q).length = H.length + 1 + Q.length := by
    simp only [List.length_append, List.length_cons]; omega
  have h := holdsSection_intro lib (H ++ msg :: Q) (Z1 ++ Z2) (H.length + 1 + Q.length)
    (H.length + 1 + Q.length + 1) pans cnt dup hl rfl
  simpa only [List.append_assoc, List.cons_append] using h

theorem holdsSection_layout1 (lib : DnsLib) (H Q Z1 : List Table) (msg : Table)
    (pans : Nat → dns_answer_t) (cnt : Nat) (dup : Bool) :
    HoldsSection lib
      (H ++ msg :: (Q ++ sect lib pans dup (H.length + 1 + Q.length + 1) cnt ::
        segs lib pans (H.length + 1 + Q.length + 1) cnt ++ Z1))
      (H.length + 1 + Q.length) pans cnt dup := by
  have h := holdsSection_layout lib H Q Z1 [] msg pans cnt dup
  rw [List.append_nil] at h
  exact h

theorem holdsSection_layout0 (lib : DnsLib) (H Q : List Table) (msg : Table)
    (pans : Nat → dns_answer_t) (cnt : Nat) (dup : Bool) :
    HoldsSection lib
      (H ++ msg :: (Q ++ sect lib pans dup (H.length + 1 + Q.length + 1) cnt ::
        segs lib pans (H.length + 1 + Q.length + 1) cnt))
      (H.length + 1 + Q.length) pans cnt dup := by
  have h := holdsSection_layout1 lib H Q [] msg pans cnt dup
  rw [List.append_nil] at h
  exact h

/-- The sections of a decoded message, as the heap holds them. -/
theorem decodedTables_sections (lib : DnsLib) (q : dns_query_t) (H : List Table) :
    HoldsSection lib (H ++ (decodedTables lib q H.length).msg :: (decodedTables lib q H.length).rest)
        (decodedTables lib q H.length).answers q.answers q.ancount false ∧
      HoldsSection lib
        (H ++ (decodedTables lib q H.length).msg :: (decodedTables lib q H.length).rest)
        (decodedTables lib q H.length).nameservers q.nameservers q.nscount false ∧
      HoldsSection lib
        (H ++ (decodedTables lib q H.length).msg :: (decodedTables lib q H.length).rest)
        (decodedTables lib q H.length).additional q.additional q.arcount true :=
  ⟨holdsSection_layout lib H _ _ _ _ q.answers q.ancount false,
   holdsSection_layout1 lib H _ _ _ q.nameservers q.nscount false,
   holdsSection_layout0 lib H _ _ q.additional q.arcount true⟩

theorem decodedTables_refs (lib : DnsLib) (q : dns_query_t) (m : Nat) :
    luaH_get (decodedTables lib q m).msg (.string "answers") =
        .table (decodedTables lib q m).answers ∧
      luaH_get (decodedTables lib q m).msg (.string "nameservers") =
        .table (decodedTables lib q m).nameservers ∧
      luaH_get (decodedTables lib q m).msg (.string "additional") =
        .table (decodedTables lib q m).additional := by
  simp [decodedTables, withFields, luaH_get_set]

theorem rdataSpec_unsupported (lib : DnsLib) (a : dns_answer_t)
    (h : a.generic.type ∉ supportedTypes) (b : Nat) : rdataSpec lib a b = ([], []) := by
  simp only [supportedTypes, List.mem_cons, List.mem_singleton, List.not_mem_nil, not_or,
    or_false] at h
  rcases rdataSpec_cases lib a with c | c | c | c | c | c | c | c | c | c | c | c | c | c | c
  all_goals first
    | exact c.2 b
    | (exfalso; rcases c with ⟨c | c, _⟩ <;> simp_all)
    | (exfalso; simp_all)

theorem luaH_get_commonFields (lib : DnsLib) (a : dns_answer_t) (k : TValue) :
    luaH_get (withFields [] (commonFields lib a)) k =
      if k = .string "type" then .string (lib.dns_type_text a.generic.type)
      else if k = .string "class" then .string (lib.dns_class_text a.generic.class)
      else if k = .string "ttl" then .number a.generic.ttl
      else if k = .string "name" then .string a.generic.name
      else .nil := by
  simp only [withFields, commonFields, List.foldl_cons, List.foldl_nil, luaH_get_set, luaH_get,
    eq_comm (a := k)]

theorem holdsSection_unknownBare (lib : DnsLib) (Hf : List Table) (t : Nat)
    (pans : Nat → dns_answer_t) (cnt : Nat) (dup : Bool)
    (h : HoldsSection lib Hf t pans cnt dup) :
    UnknownTypesBare lib Hf (.table t) pans cnt := by
  intro i hi hty
  refine ⟨?_, ?_⟩
  · intro k
    rw [holdsSection_field lib Hf t pans cnt dup h i hi k, rdataSpec_unsupported lib _ hty,
      List.append_nil, luaH_get_commonFields]
    split_ifs <;> simp_all
  · intro j hj n
    exact ⟨_, decode_answer_record_lone lib (pans j),
      holdsSection_snapshot lib Hf t pans cnt dup h j hj n⟩

theorem lua_index_msg (H Y : List Table) (msg : Table) (k : TValue) :
    lua_index (H ++ msg :: Y) (.table H.length) k = luaH_get msg k := by
  simp only [lua_index, getD_mid]

theorem dnslua_decode_body_returns (lib : DnsLib) (L : lua_State) (s : String) :
    ∃ r, dnslua_decode_body lib L s = .ok r := by
  obtain ⟨S, H⟩ := L
  by_cases hrc : (dns_decode_call lib s).1 = RCODE_OKAY
  · exact ⟨_, dnslua_decode_body_ok lib S H s hrc⟩
  · exact ⟨_, dnslua_decode_body_fail lib S H s hrc⟩

theorem dnslua_decode_no_assertion (lib : DnsLib) (L : lua_State) :
    dnslua_decode lib L ≠ .error .assertion := by
  unfold dnslua_decode luaL_checklstring
  cases hidx : index2adr L 1 with
  | none => simp only [except_error_bind]; intro h; cases h
  | some v =>
    cases v with
    | string s =>
      simp only [except_ok_bind]
      obtain ⟨r, hr⟩ := dnslua_decode_body_returns lib L s
      rw [hr]; intro h; cases h
    | number n =>
      simp only [except_ok_bind]
      obtain ⟨r, hr⟩ := dnslua_decode_body_returns lib
        (lua_setslot L 1 (.string (lib.lua_number2str n))) (lib.lua_number2str n)
      rw [hr]; intro h; cases h
    | nil => simp only [except_error_bind]; intro h; cases h
    | boolean b => simp only [except_error_bind]; intro h; cases h
    | table r => simp only [except_error_bind]; intro h; cases h

/-- C9: `decode_answer` leaves the stack as it found it, after any number of
iterations of its loop the stack is the one the loop started with (in `dup`
mode too), and `dnslua_decode` never fails its final assertion
`tab == lua_gettop(L)`. -/
theorem decode_answer_stack_neutral (lib : DnsLib) (S : List TValue) (H : List Table)
    (tab : Int) (name : String) (pans : Nat → dns_answer_t) (cnt : Nat) (dup : Bool) (m : Nat)
    (hpos : 0 < tab) (htab : index2adr ⟨S, H⟩ tab = some (.table m)) (hm : m < H.length) :
    (∃ L', decode_answer lib ⟨S, H⟩ tab name pans cnt dup = some L' ∧
      L'.stack = S ∧ lua_gettop L' = lua_gettop ⟨S, H⟩) ∧
    (∀ k, ∃ Lk, decode_answer_loop lib pans dup k (lua_createtable ⟨S, H⟩ cnt 0) = some Lk ∧
      Lk.stack = (lua_createtable ⟨S, H⟩ cnt 0).stack) ∧
    (∀ L, dnslua_decode lib L ≠ .error .assertion) := by
  refine ⟨⟨_, decode_answer_eq lib S H tab name pans cnt dup m hpos htab hm, rfl, rfl⟩, ?_,
    dnslua_decode_no_assertion lib⟩
  intro k
  exact ⟨_, decode_answer_loop_eq lib pans dup S H k, rfl⟩

theorem luaH_get_headerFields (q : dns_query_t) (t : Table) (k : TValue) :
    luaH_get (withFields t (headerFields q)) k =
      if k = .string "rcode" then .number q.rcode
      else if k = .string "cd" then .boolean q.cd
      else if k = .string "ad" then .boolean q.ad
      else if k = .string "ra" then .boolean q.ra
      else if k = .string "rd" then .boolean q.rd
      else if k = .string "tc" then .boolean q.tc
      else if k = .string "aa" then .boolean q.aa
      else luaH_get t k := by
  simp only [withFields, headerFields, List.foldl_cons, List.foldl_nil, luaH_get_set,
    eq_comm (a := k)]

/-- The fields of the message table `dnslua_decode` builds. -/
theorem luaH_get_decoded_msg (lib : DnsLib) (q : dns_query_t) (m : Nat) (k : TValue) :
    luaH_get (decodedTables lib q m).msg k =
      if k = .string "additional" then .table (decodedTables lib q m).additional
      else if k = .string "nameservers" then .table (decodedTables lib q m).nameservers
      else if k = .string "answers" then .table (decodedTables lib q m).answers
      else if k = .string "question" then (if q.qdcount ≠ 0 then .table (m + 1) else .nil)
      else if k = .string "rcode" then .number q.rcode
      else if k = .string "cd" then .boolean q.cd
      else if k = .string "ad" then .boolean q.ad
      else if k = .string "ra" then .boolean q.ra
      else if k = .string "rd" then .boolean q.rd
      else if k = .string "tc" then .boolean q.tc
      else if k = .string "aa" then .boolean q.aa
      else .nil := by
  by_cases hq : q.qdcount = 0
  · simp only [decodedTables, hq, ne_eq, not_true, if_false, withFields, List.foldl_cons,
      List.foldl_nil, luaH_get_set, eq_comm (a := k)]
    rw [show List.foldl (fun t kv => luaH_set t (TValue.string kv.1) kv.2) [] (headerFields q) =
      withFields [] (headerFields q) from rfl, luaH_get_headerFields]
    simp only [luaH_get, eq_comm (a := k)]
    by_cases hk : TValue.string "question" = k
    · subst hk; simp
    · simp only [hk, if_false]
  · simp only [decodedTables, hq, ne_eq, not_false_eq_true, if_true, withFields,
      List.foldl_cons, List.foldl_nil, List.foldl_append, luaH_get_set, eq_comm (a := k)]
    rw [show List.foldl (fun t kv => luaH_set t (TValue.string kv.1) kv.2) [] (headerFields q) =
      withFields [] (headerFields q) from rfl, luaH_get_headerFields]
    simp only [luaH_get, eq_comm (a := k)]

theorem decoded_question (lib : DnsLib) (q : dns_query_t) (H : List Table) (hq : q.qdcount ≠ 0)
    (k : TValue) :
    lua_index (H ++ (decodedTables lib q H.length).msg :: (decodedTables lib q H.length).rest)
        (.table (H.length + 1)) k =
      luaH_get (withFields [] (questionFields lib q)) k := by
  simp only [lua_index, decodedTables, hq, ne_eq, not_false_eq_true, if_true,
    List.singleton_append, List.cons_append, getD_mid1]

/-- What a successful `dnslua_decode` leaves: the message table is the fresh
table `H.length`, the heap is `H` followed by the tables of `decodedTables`. -/
theorem dnslua_decode_structure (lib : DnsLib) (H : List Table) (bs : String)
    (hok : (dns_decode_call lib bs).1 = RCODE_OKAY) :
    dnslua_decode lib ⟨[.string bs], H⟩ =
      .ok ([.table H.length], ⟨[.table H.length, .string bs],
        H ++ (decodedTables lib (dns_decode_call lib bs).2 H.length).msg ::
          (decodedTables lib (dns_decode_call lib bs).2 H.length).rest⟩) := by
  rw [dnslua_decode_string, dnslua_decode_body_ok lib _ H bs hok]

/-- C2: called with a byte string, `dnslua_decode` returns exactly one value,
a reference to a fresh message table with all its fields, when `dns_decode`
returns `RCODE_OKAY`; otherwise it returns exactly `nil` and the rcode text,
and has allocated no table. -/
theorem dnslua_decode_table_or_nil (lib : DnsLib) (H : List Table) (bs : String) :
    if (dns_decode_call lib bs).1 = RCODE_OKAY then
      ∃ Ld, dnslua_decode lib ⟨[.string bs], H⟩ = .ok ([.table H.length], Ld) ∧
        Ld.heap.take H.length = H ∧ H.length < Ld.heap.length ∧
        lua_index Ld.heap (.table H.length) (.string "aa") =
          .boolean (dns_decode_call lib bs).2.aa ∧
        lua_index Ld.heap (.table H.length) (.string "tc") =
          .boolean (dns_decode_call lib bs).2.tc ∧
        lua_index Ld.heap (.table H.length) (.string "rd") =
          .boolean (dns_decode_call lib bs).2.rd ∧
        lua_index Ld.heap (.table H.length) (.string "ra") =
          .boolean (dns_decode_call lib bs).2.ra ∧
        lua_index Ld.heap (.table H.length) (.string "ad") =
          .boolean (dns_decode_call lib bs).2.ad ∧
        lua_index Ld.heap (.table H.length) (.string "cd") =
          .boolean (dns_decode_call lib bs).2.cd ∧
        lua_index Ld.heap (.table H.length) (.string "rcode") =
          .number (dns_decode_call lib bs).2.rcode ∧
        (if (dns_decode_call lib bs).2.qdcount ≠ 0 then
          ∃ r, lua_index Ld.heap (.table H.length) (.string "question") = .table r ∧
            lua_index Ld.heap (.table r) (.string "name") =
              .string ((dns_decode_call lib bs).2.questions 0).name ∧
            lua_index Ld.heap (.table r) (.string "class") =
              .string (lib.dns_class_text ((dns_decode_call lib bs).2.questions 0).class) ∧
            lua_index Ld.heap (.table r) (.string "type") =
              .string (lib.dns_type_text ((dns_decode_call lib bs).2.questions 0).type)
        else lua_index Ld.heap (.table H.length) (.string "question") = .nil) ∧
        (∃ r, lua_index Ld.heap (.table H.length) (.string "answers") = .table r ∧
          ∀ x : ℚ, lua_index Ld.heap (.table r) (.number x) ≠ .nil ↔
            ∃ i, i < (dns_decode_call lib bs).2.ancount ∧ x = ((i + 1 : Nat) : ℚ)) ∧
        (∃ r, lua_index Ld.heap (.table H.length) (.string "nameservers") = .table r ∧
          ∀ x : ℚ, lua_index Ld.heap (.table r) (.number x) ≠ .nil ↔
            ∃ i, i < (dns_decode_call lib bs).2.nscount ∧ x = ((i + 1 : Nat) : ℚ)) ∧
        (∃ r, lua_index Ld.heap (.table H.length) (.string "additional") = .table r ∧
          ∀ x : ℚ, lua_index Ld.heap (.table r) (.number x) ≠ .nil ↔
            ∃ i, i < (dns_decode_call lib bs).2.arcount ∧ x = ((i + 1 : Nat) : ℚ))
    else
      dnslua_decode lib ⟨[.string bs], H⟩ =
        .ok ([.nil, .string (lib.dns_rcode_text (dns_decode_call lib bs).1)],
          ⟨[.string (lib.dns_rcode_text (dns_decode_call lib bs).1), .nil, .string bs], H⟩) := by
  by_cases hok : (dns_decode_call lib bs).1 = RCODE_OKAY
  · rw [if_pos hok]
    obtain ⟨hA, hN, hR⟩ := decodedTables_sections lib (dns_decode_call lib bs).2 H
    refine ⟨_, dnslua_decode_structure lib H bs hok, ?_, ?_, ?_, ?_, ?_, ?_, ?_, ?_, ?_, ?_,
      ?_, ?_, ?_⟩
    · simp
    · simp only [List.length_append, List.length_cons]; omega
    · rw [lua_index_msg, luaH_get_decoded_msg]; simp
    · rw [lua_index_msg, luaH_get_decoded_msg]; simp
    · rw [lua_index_msg, luaH_get_decoded_msg]; simp
    · rw [lua_index_msg, luaH_get_decoded_msg]; simp
    · rw [lua_index_msg, luaH_get_decoded_msg]; simp
    · rw [lua_index_msg, luaH_get_decoded_msg]; simp
    · rw [lua_index_msg, luaH_get_decoded_msg]; simp
    · by_cases hq : (dns_decode_call lib bs).2.qdcount = 0
      · rw [if_neg (not_not.mpr hq), lua_index_msg, luaH_get_decoded_msg]
        simp [hq]
      · rw [if_pos hq]
        refine ⟨H.length + 1, ?_, ?_, ?_, ?_⟩
        · rw [lua_index_msg, luaH_get_decoded_msg]; simp [hq]
        · rw [decoded_question lib _ H hq]
          simp [withFields, questionFields, luaH_get_set]
        · rw [decoded_question lib _ H hq]
          simp [withFields, questionFields, luaH_get_set]
        · rw [decoded_question lib _ H hq]
          simp [withFields, questionFields, luaH_get_set]
    · refine ⟨_, ?_, holdsSection_number lib _ _ _ _ _ hA⟩
      rw [lua_index_msg, luaH_get_decoded_msg]; simp
    · refine ⟨_, ?_, holdsSection_number lib _ _ _ _ _ hN⟩
      rw [lua_index_msg, luaH_get_decoded_msg]; simp
    · refine ⟨_, ?_, holdsSection_number lib _ _ _ _ _ hR⟩
      rw [lua_index_msg, luaH_get_decoded_msg]; simp
  · rw [if_neg hok, dnslua_decode_string, dnslua_decode_body_fail lib _ H bs hok]

theorem decoded_section_refs (lib : DnsLib) (q : dns_query_t) (H : List Table) :
    lua_index (H ++ (decodedTables lib q H.length).msg :: (decodedTables lib q H.length).rest)
        (.table H.length) (.string "answers") = .table (decodedTables lib q H.length).answers ∧
    lua_index (H ++ (decodedTables lib q H.length).msg :: (decodedTables lib q H.length).rest)
        (.table H.length) (.string "nameservers") =
      .table (decodedTables lib q H.length).nameservers ∧
    lua_index (H ++ (decodedTables lib q H.length).msg :: (decodedTables lib q H.length).rest)
        (.table H.length) (.string "additional") =
      .table (decodedTables lib q H.length).additional := by
  refine ⟨?_, ?_, ?_⟩ <;> rw [lua_index_msg, luaH_get_decoded_msg] <;> simp

theorem messageOf_decodedTables (lib : DnsLib) (q : dns_query_t) (H : List Table) :
    MessageOf lib (H ++ (decodedTables lib q H.length).msg :: (decodedTables lib q H.length).rest)
      (.table H.length) q := by
  obtain ⟨hA, hN, hR⟩ := decodedTables_sections lib q H
  obtain ⟨rA, rN, rR⟩ := decoded_section_refs lib q H
  unfold MessageOf
  refine ⟨?_, ?_, ?_, ?_, ?_, ?_, ?_, ?_, ?_, ?_, ?_⟩
  · rw [lua_index_msg, luaH_get_decoded_msg]; simp
  · rw [lua_index_msg, luaH_get_decoded_msg]; simp
  · rw [lua_index_msg, luaH_get_decoded_msg]; simp
  · rw [lua_index_msg, luaH_get_decoded_msg]; simp
  · rw [lua_index_msg, luaH_get_decoded_msg]; simp
  · rw [lua_index_msg, luaH_get_decoded_msg]; simp
  · rw [lua_index_msg, luaH_get_decoded_msg]; simp
  · by_cases hq : q.qdcount = 0
    · rw [if_neg (not_not.mpr hq), lua_index_msg, luaH_get_decoded_msg]
      simp [hq]
    · rw [if_pos hq]
      have hr : lua_index
          (H ++ (decodedTables lib q H.length).msg :: (decodedTables lib q H.length).rest)
          (.table H.length) (.string "question") = .table (H.length + 1) := by
        rw [lua_index_msg, luaH_get_decoded_msg]; simp [hq]
      rw [hr]
      refine ⟨?_, ?_, ?_⟩ <;>
      · rw [decoded_question lib _ H hq]
        simp [withFields, questionFields, luaH_get_set]
  · rw [rA]; exact holdsSection_number lib _ _ _ _ _ hA
  · rw [rN]; exact holdsSection_number lib _ _ _ _ _ hN
  · rw [rR]; exact holdsSection_number lib _ _ _ _ _ hR

theorem dnslua_decode_data_eq (lib : DnsLib) (bs : String) :
    dnslua_decode_data lib bs = bs.data.take (min bs.length lib.MAX_DNS_QUERY_SIZE) := by
  unfold dnslua_decode_data
  by_cases h : bs.length > lib.MAX_DNS_QUERY_SIZE
  · simp only [h, if_true]
    rw [Nat.min_eq_right (Nat.le_of_lt h)]
  · simp only [h, if_false]
    rw [Nat.min_eq_left (Nat.le_of_not_lt h)]

/-- What `dnslua_decode` makes of what `dns_decode` returns for the octets
handed to it. -/
theorem dnslua_decode_of_call (lib : DnsLib) (H : List Table) (bs : String) :
    if (dns_decode_call lib bs).1 = RCODE_OKAY then
      ∃ Ld, dnslua_decode lib ⟨[.string bs], H⟩ = .ok ([.table H.length], Ld) ∧
        MessageOf lib Ld.heap (.table H.length) (dns_decode_call lib bs).2
    else
      dnslua_decode lib ⟨[.string bs], H⟩ =
        .ok ([.nil, .string (lib.dns_rcode_text (dns_decode_call lib bs).1)],
          ⟨[.string (lib.dns_rcode_text (dns_decode_call lib bs).1), .nil, .string bs], H⟩) := by
  by_cases hok : (dns_decode_call lib bs).1 = RCODE_OKAY
  · rw [if_pos hok]
    exact ⟨_, dnslua_decode_structure lib H bs hok, messageOf_decodedTables lib _ H⟩
  · rw [if_neg hok, dnslua_decode_string, dnslua_decode_body_fail lib _ H bs hok]

/-- C10: `dnslua_decode` hands `dns_decode` the first
`min(|bs|, MAX_DNS_QUERY_SIZE)` octets of its argument, never more than
`MAX_DNS_QUERY_SIZE`: what it returns is made of what `dns_decode` returns for
exactly these octets (the message table of the decoded query on `RCODE_OKAY`,
`nil` and the text of the return code otherwise), and it returns for `bs` what
it returns for the first `MAX_DNS_QUERY_SIZE` octets of `bs`. -/
theorem dnslua_decode_truncates (lib : DnsLib) (H : List Table) (bs : String) :
    dns_decode_call lib bs =
      lib.dns_decode lib.sizeof_decodebuf_8k
        (bs.data.take (min bs.length lib.MAX_DNS_QUERY_SIZE)) ∧
    (dnslua_decode_data lib bs).length = min bs.length lib.MAX_DNS_QUERY_SIZE ∧
    (dnslua_decode_data lib bs).length ≤ lib.MAX_DNS_QUERY_SIZE ∧
    (dnslua_decode lib ⟨[.string bs], H⟩).map (fun r => (r.1, r.2.heap)) =
      (dnslua_decode lib
        ⟨[.string (String.mk (bs.data.take lib.MAX_DNS_QUERY_SIZE))], H⟩).map
        (fun r => (r.1, r.2.heap)) ∧
    (if (lib.dns_decode lib.sizeof_decodebuf_8k
        (bs.data.take (min bs.length lib.MAX_DNS_QUERY_SIZE))).1 = RCODE_OKAY then
      ∃ Ld, dnslua_decode lib ⟨[.string bs], H⟩ = .ok ([.table H.length], Ld) ∧
        MessageOf lib Ld.heap (.table H.length)
          (lib.dns_decode lib.sizeof_decodebuf_8k
            (bs.data.take (min bs.length lib.MAX_DNS_QUERY_SIZE))).2
    else
      dnslua_decode lib ⟨[.string bs], H⟩ =
        .ok ([.nil, .string (lib.dns_rcode_text (lib.dns_decode lib.sizeof_decodebuf_8k
              (bs.data.take (min bs.length lib.MAX_DNS_QUERY_SIZE))).1)],
          ⟨[.string (lib.dns_rcode_text (lib.dns_decode lib.sizeof_decodebuf_8k
              (bs.data.take (min bs.length lib.MAX_DNS_QUERY_SIZE))).1), .nil, .string bs],
            H⟩)) := by
  have hdata := dnslua_decode_data_eq lib bs
  have hlen : (dnslua_decode_data lib bs).length = min bs.length lib.MAX_DNS_QUERY_SIZE := by
    rw [hdata, List.length_take]
    show min (min bs.data.length lib.MAX_DNS_QUERY_SIZE) bs.data.length = min bs.data.length _
    omega
  have hsame : dnslua_decode_data lib (String.mk (bs.data.take lib.MAX_DNS_QUERY_SIZE)) =
      dnslua_decode_data lib bs := by
    rw [dnslua_decode_data_eq, hdata, List.take_take]
    show List.take (min (min (bs.data.take lib.MAX_DNS_QUERY_SIZE).length _) _) _ = _
    rw [List.length_take]
    congr 1
    show _ = min bs.data.length _
    omega
  have hcall : dns_decode_call lib (String.mk (bs.data.take lib.MAX_DNS_QUERY_SIZE)) =
      dns_decode_call lib bs := by
    unfold dns_decode_call; rw [hsame]
  have hcall1 : dns_decode_call lib bs = lib.dns_decode lib.sizeof_decodebuf_8k
      (bs.data.take (min bs.length lib.MAX_DNS_QUERY_SIZE)) := by
    unfold dns_decode_call; rw [hdata]
  refine ⟨hcall1, hlen, by rw [hlen]; exact Nat.min_le_right _ _, ?_, ?_⟩
  · rw [dnslua_decode_string, dnslua_decode_string]
    by_cases hrc : (dns_decode_call lib bs).1 = RCODE_OKAY
    · rw [dnslua_decode_body_ok lib _ H bs hrc,
        dnslua_decode_body_ok lib _ H _ (by rw [hcall]; exact hrc), hcall]
      rfl
    · rw [dnslua_decode_body_fail lib _ H bs hrc,
        dnslua_decode_body_fail lib _ H _ (by rw [hcall]; exact hrc), hcall]
      rfl
  · rw [← hcall1]
    exact dnslua_decode_of_call lib H bs

/-- C4: in each section of a decoded message, a record whose type is outside
the supported set gets a record table with exactly the keys `name`, `ttl`,
`class` and `type`, and every record of the section is converted as it is
converted alone. -/
theorem unknown_type_common_fields_only (lib : DnsLib) (H : List Table) (bs : String)
    (hok : (dns_decode_call lib bs).1 = RCODE_OKAY) :
    ∃ Ld, dnslua_decode lib ⟨[.string bs], H⟩ = .ok ([.table H.length], Ld) ∧
      UnknownTypesBare lib Ld.heap (lua_index Ld.heap (.table H.length) (.string "answers"))
        (dns_decode_call lib bs).2.answers (dns_decode_call lib bs).2.ancount ∧
      UnknownTypesBare lib Ld.heap (lua_index Ld.heap (.table H.length) (.string "nameservers"))
        (dns_decode_call lib bs).2.nameservers (dns_decode_call lib bs).2.nscount ∧
      UnknownTypesBare lib Ld.heap (lua_index Ld.heap (.table H.length) (.string "additional"))
        (dns_decode_call lib bs).2.additional (dns_decode_call lib bs).2.arcount := by
  obtain ⟨hA, hN, hR⟩ := decodedTables_sections lib (dns_decode_call lib bs).2 H
  obtain ⟨rA, rN, rR⟩ := decoded_section_refs lib (dns_decode_call lib bs).2 H
  refine ⟨_, dnslua_decode_structure lib H bs hok, ?_, ?_, ?_⟩
  · rw [rA]; exact holdsSection_unknownBare lib _ _ _ _ _ hA
  · rw [rN]; exact holdsSection_unknownBare lib _ _ _ _ _ hN
  · rw [rR]; exact holdsSection_unknownBare lib _ _ _ _ _ hR

/-- C6: in a decoded message the `additional` table has, under the owner name
of a record, the very record table of the last record with that name; its
positional entries `1 .. arcount` are all present; it has no other string
key; and the `answers` and `nameservers` tables have no string key at all. -/
theorem additional_keyed_by_name (lib : DnsLib) (H : List Table) (bs : String)
    (hok : (dns_decode_call lib bs).1 = RCODE_OKAY) :
    ∃ Ld, dnslua_decode lib ⟨[.string bs], H⟩ = .ok ([.table H.length], Ld) ∧
      (∀ i, i < (dns_decode_call lib bs).2.arcount →
        (∀ j, i < j → j < (dns_decode_call lib bs).2.arcount →
          ((dns_decode_call lib bs).2.additional j).generic.name ≠
            ((dns_decode_call lib bs).2.additional i).generic.name) →
        ∃ r,
          lua_index Ld.heap (lua_index Ld.heap (.table H.length) (.string "additional"))
            (.string ((dns_decode_call lib bs).2.additional i).generic.name) = .table r ∧
          lua_index Ld.heap (lua_index Ld.heap (.table H.length) (.string "additional"))
            (.number ((i + 1 : Nat) : ℚ)) = .table r) ∧
      (∀ i, i < (dns_decode_call lib bs).2.arcount →
        lua_index Ld.heap (lua_index Ld.heap (.table H.length) (.string "additional"))
          (.number ((i + 1 : Nat) : ℚ)) ≠ .nil) ∧
      (∀ s, (∀ i, i < (dns_decode_call lib bs).2.arcount →
          ((dns_decode_call lib bs).2.additional i).generic.name ≠ s) →
        lua_index Ld.heap (lua_index Ld.heap (.table H.length) (.string "additional"))
          (.string s) = .nil) ∧
      (∀ s, lua_index Ld.heap (lua_index Ld.heap (.table H.length) (.string "answers"))
        (.string s) = .nil) ∧
      (∀ s, lua_index Ld.heap (lua_index Ld.heap (.table H.length) (.string "nameservers"))
        (.string s) = .nil) := by
  obtain ⟨hA, hN, hR⟩ := decodedTables_sections lib (dns_decode_call lib bs).2 H
  obtain ⟨rA, rN, rR⟩ := decoded_section_refs lib (dns_decode_call lib bs).2 H
  refine ⟨_, dnslua_decode_structure lib H bs hok, ?_, ?_, ?_, ?_, ?_⟩
  · intro i hi hlast
    have h2 := holdsSection_entry lib _ _ _ _ _ hR i hi
    have h1 := holdsSection_name lib _ _ _ _ hR i hi hlast
    rw [← rR] at h1 h2
    exact ⟨_, h1.trans h2, h2⟩
  · intro i hi
    rw [rR, holdsSection_entry lib _ _ _ _ _ hR i hi]
    simp
  · intro s hs
    rw [rR]; exact holdsSection_name_absent lib _ _ _ _ hR s hs
  · intro s
    rw [rA]; exact holdsSection_string_nodup lib _ _ _ _ hA s
  · intro s
    rw [rN]; exact holdsSection_string_nodup lib _ _ _ _ hN s

/-- C3 (the code at the failing input): for the GPOS record `exampleGpos` the
`latitude` field of the record table is the table of the longitude angle
(1 degree, hemisphere `E`) and the `longitude` field that of the latitude
angle (10 degrees, hemisphere `N`); for the LOC record at the same position
the two fields are the right way round. -/
theorem gpos_latitude_longitude_swapped :
    exampleGpos.gpos.latitude.deg = 10 ∧ exampleGpos.gpos.longitude.deg = 1 ∧
    (∃ L, decode_answer_record modelLib ⟨[], []⟩ exampleGpos = some L ∧
      lua_index L.heap (lua_index L.heap (.table 0) (.string "latitude")) (.string "deg") =
        .number 1 ∧
      lua_index L.heap (lua_index L.heap (.table 0) (.string "latitude"))
        (.string "hemisphere") = .string "E" ∧
      lua_index L.heap (lua_index L.heap (.table 0) (.string "longitude")) (.string "deg") =
        .number 10 ∧
      lua_index L.heap (lua_index L.heap (.table 0) (.string "longitude"))
        (.string "hemisphere") = .string "N") ∧
    (∃ L, decode_answer_record modelLib ⟨[], []⟩ exampleLoc = some L ∧
      lua_index L.heap (lua_index L.heap (.table 0) (.string "latitude")) (.string "deg") =
        .number 10 ∧
      lua_index L.heap (lua_index L.heap (.table 0) (.string "latitude"))
        (.string "hemisphere") = .string "N" ∧
      lua_index L.heap (lua_index L.heap (.table 0) (.string "longitude")) (.string "deg") =
        .number 1 ∧
      lua_index L.heap (lua_index L.heap (.table 0) (.string "longitude"))
        (.string "hemisphere") = .string "E") :=
  ⟨rfl, rfl, ⟨_, rfl, by decide, by decide, by decide, by decide⟩,
    ⟨_, rfl, by decide, by decide, by decide, by decide⟩⟩

/-- C4 (witness): the third record of the additional section of `exampleResponse`
has type 41, outside the supported set. -/
theorem unknown_type_common_fields_only_witness :
    (dns_decode_call modelLib exampleResponse).1 = RCODE_OKAY ∧
    ∃ Ld, dnslua_decode modelLib ⟨[.string exampleResponse], []⟩ =
        .ok ([.table ([] : List Table).length], Ld) ∧
      UnknownTypesBare modelLib Ld.heap
        (lua_index Ld.heap (.table ([] : List Table).length) (.string "answers"))
        (dns_decode_call modelLib exampleResponse).2.answers
        (dns_decode_call modelLib exampleResponse).2.ancount ∧
      UnknownTypesBare modelLib Ld.heap
        (lua_index Ld.heap (.table ([] : List Table).length) (.string "nameservers"))
        (dns_decode_call modelLib exampleResponse).2.nameservers
        (dns_decode_call modelLib exampleResponse).2.nscount ∧
      UnknownTypesBare modelLib Ld.heap
        (lua_index Ld.heap (.table ([] : List Table).length) (.string "additional"))
        (dns_decode_call modelLib exampleResponse).2.additional
        (dns_decode_call modelLib exampleResponse).2.arcount :=
  ⟨by decide, unknown_type_common_fields_only modelLib [] exampleResponse (by decide)⟩

/-- C9 (witness): two copies of `exampleGpos` converted, with name keys, into the
table at index 1. -/
theorem decode_answer_stack_neutral_witness :
    (0 : Int) < 1 ∧ index2adr ⟨[.table 0], [[]]⟩ 1 = some (.table 0) ∧
    0 < ([[]] : List Table).length ∧
    ((∃ L', decode_answer modelLib ⟨[.table 0], [[]]⟩ 1 "additional" (fun _ => exampleGpos) 2
          true = some L' ∧
        L'.stack = [.table 0] ∧ lua_gettop L' = lua_gettop ⟨[.table 0], [[]]⟩) ∧
      (∀ k, ∃ Lk, decode_answer_loop modelLib (fun _ => exampleGpos) true k
            (lua_createtable ⟨[.table 0], [[]]⟩ 2 0) = some Lk ∧
          Lk.stack = (lua_createtable ⟨[.table 0], [[]]⟩ 2 0).stack) ∧
      (∀ L, dnslua_decode modelLib L ≠ .error .assertion)) :=
  ⟨by decide, rfl, by decide,
    decode_answer_stack_neutral modelLib [.table 0] [[]] 1 "additional" (fun _ => exampleGpos) 2
      true 0 (by decide) rfl (by decide)⟩

/-- C7 (counterexample): for the empty table `{}` `dnslua_encode` returns
neither a byte string nor the pair `nil`, rcode text: it raises a type error
for the missing `question`. -/
theorem dnslua_encode_empty_table_raises :
    dnslua_encode modelLib ⟨[.table 0], [[]]⟩ = .error (.typerror 2 "table") ∧
    ¬ ∃ r, dnslua_encode modelLib ⟨[.table 0], [[]]⟩ = .ok r :=
  ⟨rfl, fun ⟨_, h⟩ => by cases h⟩

/-- What `dnslua_encode` returns once its argument checks are through. -/
theorem dnslua_encode_outcome (lib : DnsLib) (L L1 : lua_State) (query : dns_query_t)
    (hchk : dnslua_encode_query lib L = .ok (query, L1)) :
    if (lib.dns_encode lib.sizeof_buffer_udp query).1 = RCODE_OKAY then
      ∃ s : String,
        dnslua_encode lib L = .ok ([.string s], lua_push L1 (.string s)) ∧
        s.data = (List.range (lib.dns_encode lib.sizeof_buffer_udp query).2.2).map
          (lib.dns_encode lib.sizeof_buffer_udp query).2.1 ∧
        s.length = (lib.dns_encode lib.sizeof_buffer_udp query).2.2 ∧
        ((lib.dns_encode lib.sizeof_buffer_udp query).2.2 ≤ lib.sizeof_buffer_udp →
          s.length ≤ lib.sizeof_buffer_udp)
    else
      dnslua_encode lib L =
        .ok ([.nil, .string (lib.dns_rcode_text (lib.dns_encode lib.sizeof_buffer_udp query).1)],
          ⟨.string (lib.dns_rcode_text (lib.dns_encode lib.sizeof_buffer_udp query).1) ::
            .nil :: L1.stack, L1.heap⟩) := by
  by_cases hrc : (lib.dns_encode lib.sizeof_buffer_udp query).1 = RCODE_OKAY
  · rw [if_pos hrc]
    refine ⟨String.mk ((List.range (lib.dns_encode lib.sizeof_buffer_udp query).2.2).map
      (lib.dns_encode lib.sizeof_buffer_udp query).2.1), ?_, rfl, ?_, ?_⟩
    · simp only [dnslua_encode, hchk, except_ok_bind, hrc, ne_eq, not_true, if_false,
        lua_pushlstring, lua_push, lua_return, List.take_succ_cons, List.take_zero,
        List.reverse_cons, List.reverse_nil, List.nil_append]
    · show ((List.range _).map _).length = _
      rw [List.length_map, List.length_range]
    · intro h
      show ((List.range _).map _).length ≤ _
      rw [List.length_map, List.length_range]
      exact h
  · rw [if_neg hrc]
    simp only [dnslua_encode, hchk, except_ok_bind, hrc, ne_eq, not_false_eq_true, if_true,
      lua_pushnil, lua_pushstring, lua_push, lua_return, List.take_succ_cons, List.take_zero,
      List.reverse_cons, List.reverse_nil, List.nil_append, List.singleton_append]

theorem strArg_error (lib : DnsLib) (narg : Int) (v : TValue) (e : lua_Error)
    (h : strArg lib narg v = .error e) : ∃ n t, e = .typerror n t := by
  cases v with
  | string s => cases h
  | number n => cases h
  | nil => exact ⟨_, _, (Except.error.inj h).symm⟩
  | boolean b => exact ⟨_, _, (Except.error.inj h).symm⟩
  | table r => exact ⟨_, _, (Except.error.inj h).symm⟩

theorem optStrArg_error (lib : DnsLib) (narg : Int) (v : TValue) (d : String) (e : lua_Error)
    (h : optStrArg lib narg v d = .error e) : ∃ n t, e = .typerror n t := by
  unfold optStrArg at h
  by_cases hv : v = .nil
  · rw [if_pos hv] at h
    cases h
  · rw [if_neg hv] at h
    exact strArg_error lib narg v e h

theorem optIntArg_error (lib : DnsLib) (narg : Int) (v : TValue) (d : Int) (e : lua_Error)
    (h : optIntArg lib narg v d = .error e) : ∃ n t, e = .typerror n t := by
  cases v with
  | nil => cases h
  | number n => cases h
  | string s =>
    simp only [optIntArg] at h
    cases hs : lib.lua_str2number s with
    | none => rw [hs] at h; exact ⟨_, _, (Except.error.inj h).symm⟩
    | some n => rw [hs] at h; cases h
  | boolean b => exact ⟨_, _, (Except.error.inj h).symm⟩
  | table r => exact ⟨_, _, (Except.error.inj h).symm⟩

theorem encodeQuerySpec_error (lib : DnsLib) (H : List Table) (m : Nat) (e : lua_Error)
    (hq : ∀ qr, fld H m "question" = .table qr → qr < H.length)
    (h : encodeQuerySpec lib H m = .error e) : ∃ n t, e = .typerror n t := by
  unfold encodeQuerySpec at h
  cases hqv : fld H m "question" with
  | table qr =>
    rw [hqv] at h
    simp only [hq qr hqv, if_true] at h
    cases h1 : strArg lib (-3) (fld H qr "name") with
    | error e1 =>
      rw [h1] at h
      simp only [except_error_bind] at h
      exact strArg_error lib _ _ e (h1.trans (congrArg _ (Except.error.inj h)))
    | ok name =>
      rw [h1] at h
      simp only [except_ok_bind] at h
      cases h2 : optStrArg lib (-2) (fld H qr "type") "A" with
      | error e2 =>
        rw [h2] at h
        simp only [except_error_bind] at h
        exact optStrArg_error lib _ _ _ e (h2.trans (congrArg _ (Except.error.inj h)))
      | ok type =>
        rw [h2] at h
        simp only [except_ok_bind] at h
        cases h3 : optStrArg lib (-1) (fld H qr "class") "IN" with
        | error e3 =>
          rw [h3] at h
          simp only [except_error_bind] at h
          exact optStrArg_error lib _ _ _ e (h3.trans (congrArg _ (Except.error.inj h)))
        | ok cls =>
          rw [h3] at h
          simp only [except_ok_bind] at h
          cases h4 : optIntArg lib (-4) (fld H m "id") 1234 with
          | error e4 =>
            rw [h4] at h
            simp only [except_error_bind] at h
            exact optIntArg_error lib _ _ _ e (h4.trans (congrArg _ (Except.error.inj h)))
          | ok id =>
            rw [h4] at h
            simp only [except_ok_bind] at h
            cases h5 : optStrArg lib (-1) (fld H m "opcode") "QUERY" with
            | error e5 =>
              rw [h5] at h
              simp only [except_error_bind] at h
              exact optStrArg_error lib _ _ _ e (h5.trans (congrArg _ (Except.error.inj h)))
            | ok opcode =>
              rw [h5] at h
              cases h
  | nil => rw [hqv] at h; exact ⟨_, _, (Except.error.inj h).symm⟩
  | boolean b => rw [hqv] at h; exact ⟨_, _, (Except.error.inj h).symm⟩
  | number n => rw [hqv] at h; exact ⟨_, _, (Except.error.inj h).symm⟩
  | string s => rw [hqv] at h; exact ⟨_, _, (Except.error.inj h).symm⟩

/-- A failed argument check of a call with one argument is a type error,
when the table references of the argument lie in the heap. -/
theorem dnslua_encode_query_error (lib : DnsLib) (v : TValue) (H : List Table) (e : lua_Error)
    (hv : ∀ m, v = .table m →
      m < H.length ∧ ∀ qr, lua_index H (.table m) (.string "question") = .table qr →
        qr < H.length)
    (h : dnslua_encode_query lib ⟨[v], H⟩ = .error e) : ∃ n t, e = .typerror n t := by
  cases v with
  | table m =>
    obtain ⟨hm, hq⟩ := hv m rfl
    rw [dnslua_encode_query_eq lib H m hm] at h
    cases hs : encodeQuerySpec lib H m with
    | error e1 =>
      rw [hs] at h
      have he : e1 = e := Except.error.inj h
      exact encodeQuerySpec_error lib H m e hq (he ▸ hs)
    | ok q => rw [hs] at h; cases h
  | nil => exact ⟨_, _, (Except.error.inj h).symm⟩
  | boolean b => exact ⟨_, _, (Except.error.inj h).symm⟩
  | number n => exact ⟨_, _, (Except.error.inj h).symm⟩
  | string s => exact ⟨_, _, (Except.error.inj h).symm⟩

theorem dnslua_encode_error (lib : DnsLib) (L : lua_State) (e : lua_Error)
    (h : dnslua_encode_query lib L = .error e) : dnslua_encode lib L = .error e := by
  simp only [dnslua_encode, h, except_error_bind]

/-- C7 (amended): when the argument checks of `dnslua_encode` pass, it
returns exactly one value, the string of the first `len` octets of the buffer,
`len` being the length `dns_encode` reports (so at most the size of the buffer
when `dns_encode` keeps `len` within the capacity it was given), if
`dns_encode` returns `RCODE_OKAY`, and otherwise exactly `nil` and the rcode
text, nothing of the buffer.  When a check fails, `dnslua_encode` raises the
error of the check instead of returning, and for a call with one argument
whose table references lie in the heap that error is a type error. -/
theorem dnslua_encode_bytes_or_nil (lib : DnsLib) (L : lua_State) :
    (∀ query L1, dnslua_encode_query lib L = .ok (query, L1) →
      if (lib.dns_encode lib.sizeof_buffer_udp query).1 = RCODE_OKAY then
        ∃ s : String,
          dnslua_encode lib L = .ok ([.string s], lua_push L1 (.string s)) ∧
          s.data = (List.range (lib.dns_encode lib.sizeof_buffer_udp query).2.2).map
            (lib.dns_encode lib.sizeof_buffer_udp query).2.1 ∧
          s.length = (lib.dns_encode lib.sizeof_buffer_udp query).2.2 ∧
          ((lib.dns_encode lib.sizeof_buffer_udp query).2.2 ≤ lib.sizeof_buffer_udp →
            s.length ≤ lib.sizeof_buffer_udp)
      else
        dnslua_encode lib L =
          .ok ([.nil,
              .string (lib.dns_rcode_text (lib.dns_encode lib.sizeof_buffer_udp query).1)],
            ⟨.string (lib.dns_rcode_text (lib.dns_encode lib.sizeof_buffer_udp query).1) ::
              .nil :: L1.stack, L1.heap⟩)) ∧
    (∀ e, dnslua_encode_query lib L = .error e →
      dnslua_encode lib L = .error e ∧ ¬ ∃ r, dnslua_encode lib L = .ok r) ∧
    (∀ v H, L = ⟨[v], H⟩ →
      (∀ m, v = .table m →
        m < H.length ∧ ∀ qr, lua_index H (.table m) (.string "question") = .table qr →
          qr < H.length) →
      ∀ e, dnslua_encode_query lib L = .error e → ∃ narg tname, e = .typerror narg tname) := by
  refine ⟨fun query L1 hchk => dnslua_encode_outcome lib L L1 query hchk, ?_, ?_⟩
  · intro e he
    have h := dnslua_encode_error lib L e he
    refine ⟨h, ?_⟩
    rintro ⟨r, hr⟩
    rw [h] at hr
    cases hr
  · intro v H hL hv e he
    subst hL
    exact dnslua_encode_query_error lib v H e hv he

theorem dnslua_encode_values_congr (lib : DnsLib) (L L' : lua_State)
    (h : (dnslua_encode_query lib L).map Prod.fst = (dnslua_encode_query lib L').map Prod.fst) :
    (dnslua_encode lib L).map Prod.fst = (dnslua_encode lib L').map Prod.fst := by
  cases h1 : dnslua_encode_query lib L with
  | error e =>
    cases h2 : dnslua_encode_query lib L' with
    | error e' =>
      rw [h1, h2] at h
      simp only [dnslua_encode, h1, h2, except_error_bind]
      have he : e = e' := by
        have h' : (Except.error e : Except lua_Error dns_query_t) = Except.error e' := h
        exact Except.error.inj h'
      rw [he]
    | ok p' => rw [h1, h2] at h; cases h
  | ok p =>
    cases h2 : dnslua_encode_query lib L' with
    | error e' => rw [h1, h2] at h; cases h
    | ok p' =>
      rw [h1, h2] at h
      obtain ⟨q, L1⟩ := p
      obtain ⟨q', L1'⟩ := p'
      have hq : q = q' := by
        have := Except.ok.inj h
        exact this
      subst hq
      have a := dnslua_encode_outcome lib L L1 q h1
      have b := dnslua_encode_outcome lib L' L1' q h2
      by_cases hrc : (lib.dns_encode lib.sizeof_buffer_udp q).1 = RCODE_OKAY
      · rw [if_pos hrc] at a b
        obtain ⟨s, hs, hd, -, -⟩ := a
        obtain ⟨s', hs', hd', -, -⟩ := b
        have : s = s' := by
          cases s; cases s'; simp only at hd hd'; rw [hd, hd']
        subst this
        rw [hs, hs']; rfl
      · rw [if_neg hrc] at a b
        rw [a, b]; rfl

theorem fld_heap_setfield (H : List Table) (r : Nat) (c : String) (v : TValue) (r' : Nat)
    (k : String) (hr : r < H.length) :
    fld (heap_setfield H r c v) r' k = if r' = r ∧ k = c then v else fld H r' k := by
  unfold fld heap_setfield
  rw [List.getD_eq_getElem?_getD, List.getElem?_set]
  by_cases h : r = r'
  · subst h
    simp only [hr, if_true, true_and, Option.getD_some, luaH_get_set, TValue.string.injEq]
    by_cases hk : c = k
    · simp [hk]
    · simp [hk, Ne.symm hk, eq_comm]
  · have h' : ¬ r' = r := fun e => h e.symm
    simp only [h, if_false, h', false_and]
    rw [← List.getD_eq_getElem?_getD]

theorem length_heap_setfield (H : List Table) (r : Nat) (c : String) (v : TValue) :
    (heap_setfield H r c v).length = H.length := by
  simp [heap_setfield]

theorem sameEncoding_of_spec (lib : DnsLib) (m : Nat) (H H' : List Table) (hm : m < H.length)
    (hm' : m < H'.length) (h : encodeQuerySpec lib H m = encodeQuerySpec lib H' m) :
    SameEncoding lib m H H' := by
  have hq : (dnslua_encode_query lib ⟨[.table m], H⟩).map Prod.fst =
      (dnslua_encode_query lib ⟨[.table m], H'⟩).map Prod.fst := by
    rw [dnslua_encode_query_eq lib H m hm, dnslua_encode_query_eq lib H' m hm', h]
    cases encodeQuerySpec lib H' m <;> rfl
  exact ⟨hq, dnslua_encode_values_congr lib _ _ hq⟩

theorem lua_number2int_1234 : lua_number2int 1234 = 1234 := by decide

/-- C8: for a message table whose `question` is a table, leaving out
`question.class` is the same as giving `"IN"`, leaving out `question.type` the
same as giving `"A"`, leaving out `opcode` the same as giving `"QUERY"` and
leaving out `id` the same as giving 1234: `dnslua_encode` builds the same
query, with question count 1, and returns the same values. -/
theorem dnslua_encode_defaults (lib : DnsLib) (H : List Table) (m qr : Nat)
    (hm : m < H.length)
    (hq : lua_index H (.table m) (.string "question") = .table qr) (hqr : qr < H.length) :
    (∀ query L1, dnslua_encode_query lib ⟨[.table m], H⟩ = .ok (query, L1) →
      query.qdcount = 1) ∧
    (lua_index H (.table qr) (.string "class") = .nil →
      SameEncoding lib m H (heap_setfield H qr "class" (.string "IN"))) ∧
    (lua_index H (.table qr) (.string "type") = .nil →
      SameEncoding lib m H (heap_setfield H qr "type" (.string "A"))) ∧
    (lua_index H (.table m) (.string "opcode") = .nil →
      SameEncoding lib m H (heap_setfield H m "opcode" (.string "QUERY"))) ∧
    (lua_index H (.table m) (.string "id") = .nil →
      SameEncoding lib m H (heap_setfield H m "id" (.number 1234))) := by
  have hq' : fld H m "question" = .table qr := hq
  refine ⟨?_, ?_, ?_, ?_, ?_⟩
  · intro query L1 h
    rw [dnslua_encode_query_eq lib H m hm] at h
    simp only [encodeQuerySpec, hq', hqr, if_true] at h
    cases h1 : strArg lib (-3) (fld H qr "name") with
    | error e => rw [h1] at h; cases h
    | ok a1 =>
      cases h2 : optStrArg lib (-2) (fld H qr "type") "A" with
      | error e => rw [h1, h2] at h; cases h
      | ok a2 =>
        cases h3 : optStrArg lib (-1) (fld H qr "class") "IN" with
        | error e => rw [h1, h2, h3] at h; cases h
        | ok a3 =>
          cases h4 : optIntArg lib (-4) (fld H m "id") 1234 with
          | error e => rw [h1, h2, h3, h4] at h; cases h
          | ok a4 =>
            cases h5 : optStrArg lib (-1) (fld H m "opcode") "QUERY" with
            | error e => rw [h1, h2, h3, h4, h5] at h; cases h
            | ok a5 =>
              rw [h1, h2, h3, h4, h5] at h
              cases h
              rfl
  · intro hnil
    have hnil' : fld H qr "class" = .nil := hnil
    apply sameEncoding_of_spec lib m H _ hm (by rw [length_heap_setfield]; exact hm)
    simp only [encodeQuerySpec, fld_heap_setfield _ _ _ _ _ _ hqr, length_heap_setfield, hq',
      hqr, if_true, hnil', optStrArg]
    simp [hqr, strArg, hq']
  · intro hnil
    have hnil' : fld H qr "type" = .nil := hnil
    apply sameEncoding_of_spec lib m H _ hm (by rw [length_heap_setfield]; exact hm)
    simp only [encodeQuerySpec, fld_heap_setfield _ _ _ _ _ _ hqr, length_heap_setfield, hq',
      hqr, if_true, hnil', optStrArg]
    simp [hqr, strArg, hq']
  · intro hnil
    have hnil' : fld H m "opcode" = .nil := hnil
    apply sameEncoding_of_spec lib m H _ hm (by rw [length_heap_setfield]; exact hm)
    simp only [encodeQuerySpec, fld_heap_setfield _ _ _ _ _ _ hm, length_heap_setfield, hq',
      hqr, if_true, hnil', optStrArg]
    simp [hqr, strArg, hq']
  · intro hnil
    have hnil' : fld H m "id" = .nil := hnil
    apply sameEncoding_of_spec lib m H _ hm (by rw [length_heap_setfield]; exact hm)
    simp only [encodeQuerySpec, fld_heap_setfield _ _ _ _ _ _ hm, length_heap_setfield, hq',
      hqr, if_true, hnil', optIntArg]
    simp [lua_number2int_1234, hqr, hq']

/-- C6 (witness): the additional section of `exampleResponse`, where the name `a.b`
occurs twice. -/
theorem additional_keyed_by_name_witness :
    (dns_decode_call modelLib exampleResponse).1 = RCODE_OKAY ∧
    ∃ Ld, dnslua_decode modelLib ⟨[.string exampleResponse], []⟩ =
        .ok ([.table ([] : List Table).length], Ld) ∧
      (∀ i, i < (dns_decode_call modelLib exampleResponse).2.arcount →
        (∀ j, i < j → j < (dns_decode_call modelLib exampleResponse).2.arcount →
          ((dns_decode_call modelLib exampleResponse).2.additional j).generic.name ≠
            ((dns_decode_call modelLib exampleResponse).2.additional i).generic.name) →
        ∃ r,
          lua_index Ld.heap
            (lua_index Ld.heap (.table ([] : List Table).length) (.string "additional"))
            (.string ((dns_decode_call modelLib exampleResponse).2.additional i).generic.name) =
              .table r ∧
          lua_index Ld.heap
            (lua_index Ld.heap (.table ([] : List Table).length) (.string "additional"))
            (.number ((i + 1 : Nat) : ℚ)) = .table r) ∧
      (∀ i, i < (dns_decode_call modelLib exampleResponse).2.arcount →
        lua_index Ld.heap
          (lua_index Ld.heap (.table ([] : List Table).length) (.string "additional"))
          (.number ((i + 1 : Nat) : ℚ)) ≠ .nil) ∧
      (∀ s, (∀ i, i < (dns_decode_call modelLib exampleResponse).2.arcount →
          ((dns_decode_call modelLib exampleResponse).2.additional i).generic.name ≠ s) →
        lua_index Ld.heap
          (lua_index Ld.heap (.table ([] : List Table).length) (.string "additional"))
          (.string s) = .nil) ∧
      (∀ s, lua_index Ld.heap
        (lua_index Ld.heap (.table ([] : List Table).length) (.string "answers"))
        (.string s) = .nil) ∧
      (∀ s, lua_index Ld.heap
        (lua_index Ld.heap (.table ([] : List Table).length) (.string "nameservers"))
        (.string s) = .nil) :=
  ⟨by decide, additional_keyed_by_name modelLib [] exampleResponse (by decide)⟩

/-- C7 (witness): the example call, whose argument checks pass, and the call
`namelessCall`, which fails the check of the question name. -/
theorem dnslua_encode_bytes_or_nil_witness :
    (∃ query L1,
      dnslua_encode_query modelLib exampleCall = .ok (query, L1) ∧
      (if (modelLib.dns_encode modelLib.sizeof_buffer_udp query).1 = RCODE_OKAY then
        ∃ s : String,
          dnslua_encode modelLib exampleCall = .ok ([.string s], lua_push L1 (.string s)) ∧
          s.data = (List.range (modelLib.dns_encode modelLib.sizeof_buffer_udp query).2.2).map
            (modelLib.dns_encode modelLib.sizeof_buffer_udp query).2.1 ∧
          s.length = (modelLib.dns_encode modelLib.sizeof_buffer_udp query).2.2 ∧
          ((modelLib.dns_encode modelLib.sizeof_buffer_udp query).2.2 ≤
              modelLib.sizeof_buffer_udp →
            s.length ≤ modelLib.sizeof_buffer_udp)
      else
        dnslua_encode modelLib exampleCall =
          .ok ([.nil, .string (modelLib.dns_rcode_text
              (modelLib.dns_encode modelLib.sizeof_buffer_udp query).1)],
            ⟨.string (modelLib.dns_rcode_text
                (modelLib.dns_encode modelLib.sizeof_buffer_udp query).1) ::
              .nil :: L1.stack, L1.heap⟩))) ∧
    (dnslua_encode_query modelLib namelessCall = .error (.typerror (-3) "string") ∧
      dnslua_encode modelLib namelessCall = .error (.typerror (-3) "string") ∧
      ¬ ∃ r, dnslua_encode modelLib namelessCall = .ok r) ∧
    (namelessCall = ⟨[.table 0], namelessCall.heap⟩ ∧
      ∃ narg tname, lua_Error.typerror (-3) "string" = .typerror narg tname) :=
  ⟨⟨_, _, rfl, (dnslua_encode_bytes_or_nil modelLib exampleCall).1 _ _ rfl⟩,
    ⟨rfl, (dnslua_encode_bytes_or_nil modelLib namelessCall).2.1 _ rfl⟩,
    ⟨rfl, (dnslua_encode_bytes_or_nil modelLib namelessCall).2.2 _ _ rfl
      (fun m hm => by
        cases hm
        exact ⟨by decide, fun qr hq => by
          have : qr = 1 := by
            have h1 : lua_index namelessCall.heap (.table 0) (.string "question") = .table 1 :=
              by decide
            exact (TValue.table.inj (h1.symm.trans hq)).symm
          subst this
          decide⟩) _ rfl⟩⟩

/-- C8 (witness): the minimal call, a message table with only a question name. -/
theorem dnslua_encode_defaults_witness :
    0 < minimalCall.heap.length ∧
    lua_index minimalCall.heap (.table 0) (.string "question") = .table 1 ∧
    1 < minimalCall.heap.length ∧
    ((∀ query L1, dnslua_encode_query modelLib ⟨[.table 0], minimalCall.heap⟩ =
        .ok (query, L1) → query.qdcount = 1) ∧
      (lua_index minimalCall.heap (.table 1) (.string "class") = .nil →
        SameEncoding modelLib 0 minimalCall.heap
          (heap_setfield minimalCall.heap 1 "class" (.string "IN"))) ∧
      (lua_index minimalCall.heap (.table 1) (.string "type") = .nil →
        SameEncoding modelLib 0 minimalCall.heap
          (heap_setfield minimalCall.heap 1 "type" (.string "A"))) ∧
      (lua_index minimalCall.heap (.table 0) (.string "opcode") = .nil →
        SameEncoding modelLib 0 minimalCall.heap
          (heap_setfield minimalCall.heap 0 "opcode" (.string "QUERY"))) ∧
      (lua_index minimalCall.heap (.table 0) (.string "id") = .nil →
        SameEncoding modelLib 0 minimalCall.heap
          (heap_setfield minimalCall.heap 0 "id" (.number 1234)))) :=
  ⟨by decide, by decide, by decide,
    dnslua_encode_defaults modelLib minimalCall.heap 0 1 (by decide) (by decide) (by decide)⟩

end SPCDNS
